import Mathlib

/-!
# snmptool / snmpdisk: table correlation and threshold evaluation

A shallow embedding of `src/snmptool.go` and `src/snmpdisk/snmpdisk.go`.

Modelling conventions.

* Go `string` is `String`.  The programs only cut strings at the ASCII
  separator `'.'`, so indices are counted in characters of the text.
* A Go run-time panic (slice bound out of range, index out of range, failed
  type assertion) is an explicit outcome, never silently dropped.
* `StreamWalk` delivers its rows through a channel in FIFO order and then
  closes it; the consumer's `for ... range` loop is a left-to-right pass over
  the finite list of delivered rows.
* Go `int` is `Int`: the programs add 1 to an index, count a loop down and
  convert SNMP integers to `float64`; none of this can overflow 64 bits.
* The SNMP transport (`gosnmp`) and the threshold library
  (`nagiosrangeparser`) are external: they enter as parameters.  `sendPacket`
  records the one fact about the transport that decides which results a
  fetch can have: a reply without variables is handed over as an error.
* `float64` arithmetic is external too: it enters as a record of operations
  (`Float64Ops`), so that every general statement holds for the IEEE-754
  operations whatever their rounding.
-/

set_option autoImplicit false

namespace Go

/-- Scan for `strings.LastIndex`: `i` is the index of the head of the remaining
text, `best` the index of the last separator seen so far (`-1` if none). -/
def lastIndexFrom (sep : Char) : List Char → Nat → Int → Int
  | [], _, best => best
  | c :: cs, i, best => lastIndexFrom sep cs (i + 1) (if c = sep then (i : Int) else best)

/-- The Go call `strings.LastIndex(s, sep)` for a one-character separator: the index
of the last occurrence of `sep` in `s`, or `-1` when there is none. -/
def LastIndex (s : String) (sep : Char) : Int :=
  lastIndexFrom sep s.data 0 (-1)

/-- The slice `s[lo:]`; `none` is the run-time panic for a bound out of range. -/
def sliceFrom (s : String) (lo : Int) : Option String :=
  if 0 ≤ lo ∧ lo ≤ (s.data.length : Int) then some ⟨s.data.drop lo.toNat⟩ else none

/-- The slice `s[:hi]`; `none` is the run-time panic for a bound out of range. -/
def sliceTo (s : String) (hi : Int) : Option String :=
  if 0 ≤ hi ∧ hi ≤ (s.data.length : Int) then some ⟨s.data.take hi.toNat⟩ else none

/-- An error value produced by an external library: the text of `err.Error()` and
the text that the verb `%#v` prints for it. -/
structure GoError where
  Error : String
  GoRepr : String
  deriving DecidableEq, Repr

/-- What a Go function with results `(T, error)` does: return a value, return an
error, or panic. -/
inductive Result (ε α : Type) where
  | ok (a : α)
  | error (e : ε)
  | panic
  deriving DecidableEq, Repr

end Go

namespace Gosnmp

/-- The dynamically typed `Value interface{}` of a PDU: a string, an `int`, or a
value of any other dynamic type. -/
inductive Value where
  | str (s : String)
  | int (n : Int)
  | other
  deriving DecidableEq, Repr

/-- The Go type `gosnmp.SnmpPDU`, restricted to the fields the programs read. -/
structure SnmpPDU where
  Name : String
  Value : Value
  deriving DecidableEq, Repr

/-- The session `*gosnmp.GoSNMP` as the programs use it: `StreamWalk oid` is the
finite sequence of rows sent on the channel before it is closed; `Get oid` is
either an error or the `Variables` of the response packet. -/
structure GoSNMP where
  StreamWalk : String → List SnmpPDU
  Get : String → Except Go.GoError (List SnmpPDU)

/-- The last step of `Get` in the linked library (`sendPacket` of `alouca/gosnmp`,
which is not part of the repository): a reply that is an error stays an error, a
reply decoded to zero variables becomes the error `No responses received.`, and
any other reply is returned as it is. -/
def sendPacket (reply : Except Go.GoError (List SnmpPDU)) : Except Go.GoError (List SnmpPDU) :=
  match reply with
  | .error err => .error err
  | .ok [] =>
    .error { Error := "No responses received.",
             GoRepr := "&errors.errorString\x7bs:\"No responses received.\"\x7d" }
  | .ok (v :: rest) => .ok (v :: rest)

/-- The session that the library presents for an agent: `walk oid` are the rows the
agent delivers for a walk, `reply oid` is the decoded reply to a fetch, before
`sendPacket` has looked at its number of variables. -/
def GoSNMP.ofAgent (walk : String → List SnmpPDU)
    (reply : String → Except Go.GoError (List SnmpPDU)) : GoSNMP :=
  { StreamWalk := walk, Get := fun oid => sendPacket (reply oid) }

end Gosnmp

namespace Snmptool

open Go Gosnmp

/-- Errors that `getSuffixForString` and `getAssociatedValue` return: the two
package-level error values, or an error handed up from the transport. -/
inductive Err where
  | OIDMappingNotFound
  | NoValueFoundError
  | transport (e : GoError)
  deriving DecidableEq, Repr

/-- The text of `err.Error()`. -/
def Err.Error : Err → String
  | .OIDMappingNotFound => "OID mapping not found matching given string"
  | .NoValueFoundError => "no value found at associated OID"
  | .transport e => e.Error

/-- The body of the loop `for s := range c` of `getSuffixForString` over the rows
delivered on the channel. -/
def getSuffixForString.range (mount : String) : List SnmpPDU → Result Err String
  | [] => .error .OIDMappingNotFound
  | s :: rest =>
    if s.Value = Value.str mount then
      match sliceFrom s.Name (LastIndex s.Name '.' + 1) with
      | some suffix => .ok suffix
      | none => .panic
    else getSuffixForString.range mount rest

/-- Embedding of `getSuffixForString` (snmptool.go, lines 25-35). -/
def getSuffixForString (s : GoSNMP) (OID mount : String) : Result Err String :=
  getSuffixForString.range mount (s.StreamWalk OID)

/-- Embedding of lines 45-54 of `getAssociatedValue`: the loop that cuts `remelts`
trailing components off `OID`, the append of the column arc and the append of
the row index.  `none` is a run-time panic: `OID[:-1]` when no separator is
left, or `append[0]` on the empty string. -/
def trimOID (OID : String) : Nat → Option String
  | 0 => some OID
  | n + 1 =>
    match sliceTo OID (LastIndex OID '.') with
    | some cut => trimOID cut n
    | none => none

/-- The OID that `getAssociatedValue` hands to `Get` (lines 45-54); the loop
`for remelts > 0` runs `remelts.toNat` times. -/
def associatedOID (OID : String) (remelts : Int) (append suffix : String) : Option String :=
  match trimOID OID remelts.toNat with
  | none => none
  | some base =>
    match append.data with
    | [] => none
    | c :: _ =>
      if c ≠ '.' then some (base ++ ("." ++ append) ++ ("." ++ suffix))
      else some (base ++ append ++ ("." ++ suffix))

/-- Embedding of lines 55-62 of `getAssociatedValue`: the point fetch and the
check of the number of returned variables. -/
def getAssociatedValue.fetch (s : GoSNMP) (OID : String) : Result Err Value :=
  match s.Get OID with
  | .error e => .error (.transport e)
  | .ok vars =>
    match vars with
    | [] => .error .NoValueFoundError
    | v :: _ => .ok v.Value

/-- Embedding of `getAssociatedValue` (snmptool.go, lines 39-63). -/
def getAssociatedValue (s : GoSNMP) (OID associate : String) (remelts : Int)
    (append : String) : Result Err Value :=
  match getSuffixForString s OID associate with
  | .error err => .error err
  | .panic => .panic
  | .ok suffix =>
    match associatedOID OID remelts append suffix with
    | none => .panic
    | some oid => getAssociatedValue.fetch s oid

end Snmptool

namespace Cli

/-- What an action hands back to `app.Run`: the exit error built by
`cli.NewExitError(message, exitCode)`, or a run-time panic of the process. -/
inductive ActionResult where
  | exitError (message : String) (exitCode : Int)
  | panic
  deriving DecidableEq, Repr

/-- The command line after flag parsing: the positional arguments and the values
bound to the `mount`, `warning` and `critical` flags. -/
structure Context where
  args : List String
  mount : String
  warning : String
  critical : String
  deriving DecidableEq, Repr

end Cli

/-- The `float64` operations the programs use: the conversion `float64(n)` of an
`int`, `*`, `/`, and the rendering of the verb `%02.2f`. -/
structure Float64Ops (F : Type) where
  ofInt : Int → F
  mul : F → F → F
  div : F → F → F
  format : F → String

/-- The part of `nagiosrangeparser` the programs call: `Compile`, the method
`Compare` of the compiled comparator, and `NagiosComparator`, whose results are
the level, the message and the return code. -/
structure RangeParser (F : Type) where
  Comparator : Type
  Compile : String → Except Go.GoError Comparator
  Compare : Comparator → F → Bool
  NagiosComparator : String → String → F → String × String × Int

namespace Cli

open Go Gosnmp

/-- Embedding of `requireHostname` (the same in both programs): the host name when
there is exactly one positional argument, otherwise the exit error the action
returns. -/
def requireHostname (c : Context) : Except ActionResult String :=
  if c.args.length ≠ 1 then .error (.exitError "A hostname is required" 3)
  else .ok (c.args.headD "")

/-- Embedding of `createSnmpClient` (the same in both programs).  `NewGoSNMP` is the
connection attempt `gosnmp.NewGoSNMP(hostname, community, gosnmp.Version2c, ...)`
as a function of the host name, the community and the timeout being fixed for
the run. -/
def createSnmpClient (NewGoSNMP : String → Except GoError GoSNMP) (hostname : String) :
    Except ActionResult GoSNMP :=
  match NewGoSNMP hostname with
  | .error err =>
    .error (.exitError ("Error connecting to " ++ hostname ++ ": " ++ err.GoRepr) 3)
  | .ok s => .ok s

end Cli

namespace Snmptool

open Go Gosnmp Cli

/-- Embedding of the `disk` and `inodes` actions (snmptool.go, lines 110-129 and
154-173), which differ only in the column arc (`"9"` or `"10"`).  A value that
is not an `int` fails the type assertion `freespace.(int)`. -/
def checkAction {F : Type} (ops : Float64Ops F) (lib : RangeParser F)
    (NewGoSNMP : String → Except GoError GoSNMP) (column : String) (c : Context) :
    ActionResult :=
  match requireHostname c with
  | .error err => err
  | .ok hostname =>
    match createSnmpClient NewGoSNMP hostname with
    | .error err => err
    | .ok s =>
      match getAssociatedValue s ".1.3.6.1.4.1.2021.9.1.2" c.mount 1 column with
      | .error err => .exitError ("Couldn't find drive free space:" ++ err.Error) 3
      | .panic => .panic
      | .ok (.int freespace) =>
        match lib.NagiosComparator c.warning c.critical (ops.ofInt freespace) with
        | (level, message, rc) =>
          if level = "UNKNOWN" then .exitError ("UNKNOWN: " ++ message) rc
          else .exitError (level ++ ": " ++ c.mount ++ " " ++ toString freespace ++ "%") rc
      | .ok _ => .panic

end Snmptool

namespace Snmpdisk

open Go Gosnmp Cli

/-- The only error value of snmpdisk: `DriveNotFoundError`. -/
inductive Err where
  | DriveNotFoundError
  deriving DecidableEq, Repr

/-- The text of `err.Error()`. -/
def Err.Error : Err → String
  | .DriveNotFoundError => "drive not found"

/-- The body of the loop `for s := range c` of `getSuffixForDrive`. -/
def getSuffixForDrive.range (mount : String) : List SnmpPDU → Result Err String
  | [] => .error .DriveNotFoundError
  | s :: rest =>
    if s.Value = Value.str mount then
      match sliceFrom s.Name (LastIndex s.Name '.' + 1) with
      | some suffix => .ok suffix
      | none => .panic
    else getSuffixForDrive.range mount rest

/-- Embedding of `getSuffixForDrive` (snmpdisk.go, lines 23-33). -/
def getSuffixForDrive (s : GoSNMP) (mount : String) : Result Err String :=
  getSuffixForDrive.range mount (s.StreamWalk ".1.3.6.1.2.1.25.2.3.1.3")

/-- The expression `r.Variables[0].Value.(int)`: `none` is the run-time panic of
indexing an empty slice or of a failed type assertion. -/
def firstInt : List SnmpPDU → Option Int
  | [] => none
  | v :: _ =>
    match v.Value with
    | .int n => some n
    | _ => none

/-- Embedding of lines 138-152 of the default action: the critical pattern is
compiled and compared first, then the warning pattern. -/
def thresholdCheck {F : Type} (ops : Float64Ops F) (lib : RangeParser F)
    (mount warning critical : String) (freespace : F) : ActionResult :=
  match lib.Compile critical with
  | .error err =>
    .exitError ("UNKNOWN: error parsing critical pattern " ++ critical ++ ": " ++ err.GoRepr) 3
  | .ok criticalComparator =>
    if lib.Compare criticalComparator freespace then
      .exitError ("CRITICAL: " ++ mount ++ " " ++ ops.format freespace) 2
    else
      match lib.Compile warning with
      | .error err =>
        .exitError ("UNKNOWN: error parsing warning pattern " ++ warning ++ ": " ++ err.GoRepr) 3
      | .ok warningComparator =>
        if lib.Compare warningComparator freespace then
          .exitError ("WARNING: " ++ mount ++ " " ++ ops.format freespace) 1
        else .exitError ("OK: " ++ mount ++ " " ++ ops.format freespace) 0

/-- Embedding of line 137: `float64(avail) * 100 / float64(size)`, evaluated left
to right. -/
def freespace {F : Type} (ops : Float64Ops F) (avail size : Int) : F :=
  ops.div (ops.mul (ops.ofInt avail) (ops.ofInt 100)) (ops.ofInt size)

/-- Embedding of the default action of snmpdisk (snmpdisk.go, lines 111-154). -/
def action {F : Type} (ops : Float64Ops F) (lib : RangeParser F)
    (NewGoSNMP : String → Except GoError GoSNMP) (ctx : Context) : ActionResult :=
  match requireHostname ctx with
  | .error err => err
  | .ok hostname =>
    match createSnmpClient NewGoSNMP hostname with
    | .error err => err
    | .ok s =>
      match getSuffixForDrive s ctx.mount with
      | .error err =>
        .exitError ("Couldn't find drive " ++ ctx.mount ++ ": " ++ err.Error) 3
      | .panic => .panic
      | .ok suffix =>
        if suffix = "" then .exitError ("Couldn't find drive " ++ ctx.mount) 3
        else
          match s.Get (".1.3.6.1.2.1.25.2.3.1.5." ++ suffix) with
          | .error err => .exitError ("Error getting size of drive " ++ err.Error) 3
          | .ok size =>
            match s.Get (".1.3.6.1.2.1.25.2.3.1.6." ++ suffix) with
            | .error err =>
              .exitError ("Error getting available space of drive " ++ err.Error) 3
            | .ok avail =>
              match firstInt avail, firstInt size with
              | some a, some t =>
                thresholdCheck ops lib ctx.mount ctx.warning ctx.critical (freespace ops a t)
              | _, _ => .panic

end Snmpdisk

/-! ## A carrier for evaluating concrete inputs

The general statements below quantify over every `Float64Ops` and every
`RangeParser`.  To run the programs on concrete inputs, `ExactFloat` supplies
the IEEE-754 special values and rules (division by zero, infinities, NaN,
comparisons with NaN) with finite arithmetic left unrounded; it agrees with
binary64 on every input whose exact results are binary64 numbers.  The
threshold library is instantiated with the range syntax described in the
specification. -/

namespace Exact

/-- A fraction `num / den` with `den > 0`, kept in lowest terms by `Frac.normalize`. -/
structure Frac where
  num : Int
  den : Nat
  deriving DecidableEq, Repr

/-- The fraction `n / d` (for `d > 0`) in lowest terms. -/
def Frac.normalize (n : Int) (d : Nat) : Frac :=
  ⟨n / (Nat.gcd n.natAbs d : Int), d / Nat.gcd n.natAbs d⟩

/-- Product of two fractions. -/
def Frac.mul (a b : Frac) : Frac := Frac.normalize (a.num * b.num) (a.den * b.den)

/-- Quotient of two fractions, for `b.num ≠ 0`. -/
def Frac.div (a b : Frac) : Frac :=
  Frac.normalize (a.num * b.den * b.num.sign) (a.den * b.num.natAbs)

/-- Strict order of two fractions. -/
def Frac.lt (a b : Frac) : Bool := decide (a.num * b.den < b.num * a.den)

/-- Non-strict order of two fractions. -/
def Frac.le (a b : Frac) : Bool := decide (a.num * b.den ≤ b.num * a.den)

/-- Finite numbers, the two infinities and NaN.  Zero carries no sign: every zero
the programs divide by is `float64(0)`, which is `+0`. -/
inductive ExactFloat where
  | nan
  | inf (negative : Bool)
  | fin (q : Frac)
  deriving DecidableEq, Repr

/-- The conversion `float64(n)`. -/
def ExactFloat.ofInt (n : Int) : ExactFloat := .fin ⟨n, 1⟩

/-- Multiplication with the IEEE-754 rules for special values. -/
def ExactFloat.mul : ExactFloat → ExactFloat → ExactFloat
  | .nan, _ => .nan
  | _, .nan => .nan
  | .inf s, .inf t => .inf (s != t)
  | .inf s, .fin q => if q.num = 0 then .nan else .inf (s != decide (q.num < 0))
  | .fin q, .inf s => if q.num = 0 then .nan else .inf (s != decide (q.num < 0))
  | .fin a, .fin b => .fin (a.mul b)

/-- Division with the IEEE-754 rules for special values and for a zero divisor. -/
def ExactFloat.div : ExactFloat → ExactFloat → ExactFloat
  | .nan, _ => .nan
  | _, .nan => .nan
  | .inf _, .inf _ => .nan
  | .inf s, .fin q => .inf (s != decide (q.num < 0))
  | .fin _, .inf _ => .fin ⟨0, 1⟩
  | .fin a, .fin b =>
    if b.num = 0 then (if a.num = 0 then .nan else .inf (decide (a.num < 0)))
    else .fin (a.div b)

/-- The comparison `x < y`; false as soon as one side is NaN. -/
def ExactFloat.lt : ExactFloat → ExactFloat → Bool
  | .nan, _ => false
  | _, .nan => false
  | .inf s, .inf t => s && !t
  | .inf s, .fin _ => s
  | .fin _, .inf t => !t
  | .fin a, .fin b => a.lt b

/-- The comparison `x ≤ y`; false as soon as one side is NaN. -/
def ExactFloat.le : ExactFloat → ExactFloat → Bool
  | .nan, _ => false
  | _, .nan => false
  | .inf s, .inf t => s || !t
  | .inf s, .fin _ => s
  | .fin _, .inf t => !t
  | .fin a, .fin b => a.le b

/-- Nearest natural number to `a / b`, ties to even. -/
def roundHalfEven (a b : Nat) : Nat :=
  if 2 * (a % b) < b then a / b
  else if b < 2 * (a % b) then a / b + 1
  else if (a / b) % 2 = 0 then a / b else a / b + 1

/-- Two decimal digits of a number below 100. -/
def twoDigits (m : Nat) : String :=
  if m < 10 then "0" ++ toString m else toString m

/-- The rendering of the verb `%02.2f`. -/
def ExactFloat.format : ExactFloat → String
  | .nan => "NaN"
  | .inf false => "+Inf"
  | .inf true => "-Inf"
  | .fin q =>
    let n := roundHalfEven (q.num.natAbs * 100) q.den
    (if q.num < 0 then "-" else "") ++ toString (n / 100) ++ "." ++ twoDigits (n % 100)

/-- The rational number that a fraction stands for. -/
def Frac.toRat (q : Frac) : ℚ := (q.num : ℚ) / (q.den : ℚ)

/-- The rational value of a finite number; `none` for NaN and the infinities. -/
def ExactFloat.val : ExactFloat → Option ℚ
  | .fin q => if q.den = 0 then none else some q.toRat
  | _ => none

/-- The `float64` operations on `ExactFloat`. -/
def ops : Float64Ops ExactFloat :=
  { ofInt := ExactFloat.ofInt, mul := ExactFloat.mul, div := ExactFloat.div,
    format := ExactFloat.format }

/-- Modelled from the spec: the `RangeSpec` record of section 3 (`nagiosrangeparser`
is an external library, absent from the sources).  A bound is a finite number or
the infinity of its side. -/
structure RangeSpec where
  negate : Bool
  lowerBound : ExactFloat
  upperBound : ExactFloat
  deriving DecidableEq, Repr

/-- Value of a run of decimal digits, continuing from `acc`. -/
def digitsFrom (acc : Nat) : List Char → Option Nat
  | [] => some acc
  | c :: cs => if c.isDigit then digitsFrom (acc * 10 + (c.toNat - 48)) cs else none

/-- Value of a non-empty run of decimal digits. -/
def parseDigits (cs : List Char) : Option Nat :=
  if cs = [] then none else digitsFrom 0 cs

/-- An unsigned decimal number: digits, optionally followed by `.` and digits. -/
def parseUnsigned (cs : List Char) : Option Frac :=
  match cs.span (fun c => c ≠ '.') with
  | (whole, []) => (parseDigits whole).map (fun n => ⟨n, 1⟩)
  | (whole, _ :: fraction) =>
    match parseDigits whole, parseDigits fraction with
    | some w, some f =>
      some (Frac.normalize ((w * 10 ^ fraction.length + f : Nat) : Int) (10 ^ fraction.length))
    | _, _ => none

/-- Modelled from the spec: the `signed-number` of the grammar of section 4.1. -/
def parseNumber : List Char → Option Frac
  | '-' :: cs => (parseUnsigned cs).map (fun q => ⟨-q.num, q.den⟩)
  | '+' :: cs => parseUnsigned cs
  | cs => parseUnsigned cs

/-- Modelled from the spec: a lower bound of a range with a colon (section 4.1):
omitted means 0, `~` means negative infinity. -/
def parseLower (cs : List Char) : Option ExactFloat :=
  if cs = [] then some (.fin ⟨0, 1⟩)
  else if cs = ['~'] then some (.inf true)
  else (parseNumber cs).map .fin

/-- Modelled from the spec: an upper bound of a range with a colon (section 4.1):
omitted means positive infinity. -/
def parseUpper (cs : List Char) : Option ExactFloat :=
  if cs = [] then some (.inf false) else (parseNumber cs).map .fin

/-- The parse error of a threshold text. -/
def parseError (text : String) : Go.GoError :=
  { Error := "invalid range: " ++ text, GoRepr := "ParseError(" ++ text ++ ")" }

/-- Modelled from the spec: `Parse` of section 4.1 (`nagiosrangeparser` is an
external library, absent from the sources).  An optional `@`, then `bound`,
`bound:`, `:bound` or `bound:bound`; a lone bound is the range from 0 to it; the
empty text, a bound that is not a number, and a lower bound above the upper
bound are errors. -/
def Parse (text : String) : Except Go.GoError RangeSpec :=
  let negate := text.data.head? = some '@'
  let body := if negate then text.data.drop 1 else text.data
  let bounds : Option (ExactFloat × ExactFloat) :=
    match body.span (fun c => c ≠ ':') with
    | (only, []) => (parseNumber only).map (fun q => (.fin ⟨0, 1⟩, .fin q))
    | (lower, _ :: upper) =>
      if lower = [] ∧ upper = [] then none
      else
        match parseLower lower, parseUpper upper with
        | some l, some u => some (l, u)
        | _, _ => none
  match bounds with
  | some (l, u) =>
    if l.le u then .ok { negate := negate, lowerBound := l, upperBound := u }
    else .error (parseError text)
  | none => .error (parseError text)

/-- Modelled from the spec: `Compare` of section 4.1; true is the alarm. -/
def Compare (spec : RangeSpec) (value : ExactFloat) : Bool :=
  if spec.negate then spec.lowerBound.le value && value.le spec.upperBound
  else value.lt spec.lowerBound || spec.upperBound.lt value

/-- Modelled from the spec: `Evaluate` of section 4.1 with the exit statuses of
section 6, standing for `NagiosComparator`. -/
def Evaluate (warning critical : String) (value : ExactFloat) : String × String × Int :=
  match Parse critical, Parse warning with
  | .error err, _ => ("UNKNOWN", "critical: " ++ err.Error, 3)
  | _, .error err => ("UNKNOWN", "warning: " ++ err.Error, 3)
  | .ok c, .ok w =>
    if Compare c value then ("CRITICAL", "", 2)
    else if Compare w value then ("WARNING", "", 1)
    else ("OK", "", 0)

/-- The threshold library of the specification, on `ExactFloat`. -/
def parser : RangeParser ExactFloat :=
  { Comparator := RangeSpec, Compile := Parse, Compare := Compare,
    NagiosComparator := Evaluate }

end Exact

namespace Exact

open Gosnmp

/-- A host for concrete runs: its storage table has the rows `/boot` (index 1) and
`/` (index 2); the agent replies to the fetches of the size and of the available
space of row 2 with `sizeVars` and `availVars`; every other fetch times out. -/
def host (sizeVars availVars : List SnmpPDU) : GoSNMP :=
  GoSNMP.ofAgent
    (fun oid =>
      if oid = ".1.3.6.1.2.1.25.2.3.1.3" then
        [⟨".1.3.6.1.2.1.25.2.3.1.3.1", .str "/boot"⟩, ⟨".1.3.6.1.2.1.25.2.3.1.3.2", .str "/"⟩]
      else if oid = ".1.3.6.1.4.1.2021.9.1.2" then
        [⟨".1.3.6.1.4.1.2021.9.1.2.1", .str "/boot"⟩, ⟨".1.3.6.1.4.1.2021.9.1.2.2", .str "/"⟩]
      else [])
    (fun oid =>
      if oid = ".1.3.6.1.2.1.25.2.3.1.5.2" then .ok sizeVars
      else if oid = ".1.3.6.1.2.1.25.2.3.1.6.2" then .ok availVars
      else if oid = ".1.3.6.1.4.1.2021.9.1.9.2" then .ok availVars
      else .error { Error := "timeout", GoRepr := "timeout" })

/-- One `int` variable, as a fetch returns it. -/
def intVar (n : Int) : List SnmpPDU := [⟨"", .int n⟩]

end Exact

/-! ## Notions of the specification -/

/-- Spec wording: an OID path rendered as dot-separated text; the text whose
dot-separated components are `comps`. -/
def joinComponents : List String → String
  | [] => ""
  | [c] => c
  | c :: d :: cs => c ++ "." ++ joinComponents (d :: cs)

/-- Spec wording: the exit-status convention of section 6 on an output
`"<LEVEL>: <context> <value>"`: status 0 exactly for the level OK, 1 exactly for
WARNING, 2 exactly for CRITICAL, and 3 for every other output. -/
def followsConvention (message : String) (exitCode : Int) : Prop :=
  (exitCode = 0 ↔ ∃ rest, message = "OK: " ++ rest) ∧
  (exitCode = 1 ↔ ∃ rest, message = "WARNING: " ++ rest) ∧
  (exitCode = 2 ↔ ∃ rest, message = "CRITICAL: " ++ rest) ∧
  (exitCode = 3 ↔ ¬((∃ rest, message = "OK: " ++ rest) ∨
    (∃ rest, message = "WARNING: " ++ rest) ∨ (∃ rest, message = "CRITICAL: " ++ rest)))

/-! ## String helpers -/

namespace Go

theorem lastIndexFrom_of_not_mem (sep : Char) (cs : List Char) (i : Nat) (best : Int)
    (h : sep ∉ cs) : lastIndexFrom sep cs i best = best := by
  induction cs generalizing i best with
  | nil => rfl
  | cons c cs ih =>
    have hc : c ≠ sep := fun e => h (by simp [e])
    have hcs : sep ∉ cs := fun e => h (List.mem_cons_of_mem _ e)
    simp [lastIndexFrom, hc, ih _ _ hcs]

theorem lastIndexFrom_append (sep : Char) (p t : List Char) (i : Nat) (best : Int)
    (h : sep ∉ t) : lastIndexFrom sep (p ++ sep :: t) i best = ((i + p.length : Nat) : Int) := by
  induction p generalizing i best with
  | nil => simp [lastIndexFrom, lastIndexFrom_of_not_mem sep t _ _ h]
  | cons c p ih =>
    show lastIndexFrom sep (p ++ sep :: t) (i + 1) _ = _
    rw [ih, List.length_cons]
    congr 1
    omega

theorem exists_last_sep (sep : Char) (l : List Char) :
    sep ∉ l ∨ ∃ p t, l = p ++ sep :: t ∧ sep ∉ t := by
  induction l with
  | nil => left; simp
  | cons c l ih =>
    rcases ih with h | ⟨p, t, hl, ht⟩
    · by_cases hc : c = sep
      · right
        exact ⟨[], l, by simp [hc], h⟩
      · left
        simp [h, Ne.symm hc]
    · right
      exact ⟨c :: p, t, by simp [hl], ht⟩

theorem sliceFrom_after_last (name : String) (p t : List Char)
    (hn : name.data = p ++ '.' :: t) (ht : '.' ∉ t) :
    sliceFrom name (LastIndex name '.' + 1) = some ⟨t⟩ := by
  unfold sliceFrom LastIndex
  rw [hn, lastIndexFrom_append '.' p t 0 (-1) ht]
  have h1 : (((0 + p.length : Nat) : Int) + 1).toNat = p.length + 1 := by omega
  have h2 : (0 : Int) ≤ ((0 + p.length : Nat) : Int) + 1 ∧
      ((0 + p.length : Nat) : Int) + 1 ≤ ((p ++ '.' :: t).length : Int) := by
    simp only [List.length_append, List.length_cons]
    omega
  rw [if_pos h2, h1]
  simp

theorem sliceFrom_no_sep (name : String) (h : '.' ∉ name.data) :
    sliceFrom name (LastIndex name '.' + 1) = some name := by
  unfold sliceFrom LastIndex
  rw [lastIndexFrom_of_not_mem '.' _ _ _ h]
  simp

theorem sliceTo_before_last (name : String) (p t : List Char)
    (hn : name.data = p ++ '.' :: t) (ht : '.' ∉ t) :
    sliceTo name (LastIndex name '.') = some ⟨p⟩ := by
  unfold sliceTo LastIndex
  rw [hn, lastIndexFrom_append '.' p t 0 (-1) ht]
  have h1 : (((0 + p.length : Nat) : Int)).toNat = p.length := by omega
  have h2 : (0 : Int) ≤ ((0 + p.length : Nat) : Int) ∧
      ((0 + p.length : Nat) : Int) ≤ ((p ++ '.' :: t).length : Int) := by
    simp only [List.length_append, List.length_cons]
    omega
  rw [if_pos h2, h1]
  simp

theorem sliceTo_no_sep (name : String) (h : '.' ∉ name.data) :
    sliceTo name (LastIndex name '.') = none := by
  unfold sliceTo LastIndex
  rw [lastIndexFrom_of_not_mem '.' _ _ _ h]
  simp

end Go

/-! ## `getSuffixForString`: first match wins -/

namespace Snmptool

open Go Gosnmp Cli

theorem range_skip (mount : String) (pre rest : List SnmpPDU)
    (h : ∀ x ∈ pre, x.Value ≠ Value.str mount) :
    getSuffixForString.range mount (pre ++ rest) = getSuffixForString.range mount rest := by
  induction pre with
  | nil => rfl
  | cons x pre ih =>
    have hx : x.Value ≠ Value.str mount := h x (by simp)
    have hpre : ∀ y ∈ pre, y.Value ≠ Value.str mount := fun y hy => h y (by simp [hy])
    simp [getSuffixForString.range, hx, ih hpre]

theorem range_hit (mount : String) (r : SnmpPDU) (post : List SnmpPDU)
    (h : r.Value = Value.str mount) :
    ∃ suffix, getSuffixForString.range mount (r :: post) = .ok suffix ∧
      ((∃ p, r.Name.data = p ++ '.' :: suffix.data ∧ '.' ∉ suffix.data) ∨
        ('.' ∉ r.Name.data ∧ suffix = r.Name)) := by
  rcases exists_last_sep '.' r.Name.data with hno | ⟨p, t, hn, ht⟩
  · refine ⟨r.Name, ?_, Or.inr ⟨hno, rfl⟩⟩
    simp [getSuffixForString.range, h, sliceFrom_no_sep r.Name hno]
  · refine ⟨⟨t⟩, ?_, Or.inl ⟨p, hn, ht⟩⟩
    simp [getSuffixForString.range, h, sliceFrom_after_last r.Name p t hn ht]

theorem range_not_found_iff (mount : String) (rows : List SnmpPDU) :
    getSuffixForString.range mount rows = .error .OIDMappingNotFound ↔
      ∀ r ∈ rows, r.Value ≠ Value.str mount := by
  induction rows with
  | nil => simp [getSuffixForString.range]
  | cons x rows ih =>
    by_cases hx : x.Value = Value.str mount
    · obtain ⟨suffix, hs, -⟩ := range_hit mount x rows hx
      rw [hs]
      simp [hx]
    · simp [getSuffixForString.range, hx, ih]

theorem exists_first_match (mount : String) (rows : List SnmpPDU)
    (h : ∃ r ∈ rows, r.Value = Value.str mount) :
    ∃ pre r post, rows = pre ++ r :: post ∧
      (∀ x ∈ pre, x.Value ≠ Value.str mount) ∧ r.Value = Value.str mount := by
  induction rows with
  | nil => simp at h
  | cons x rows ih =>
    by_cases hx : x.Value = Value.str mount
    · exact ⟨[], x, rows, rfl, by simp, hx⟩
    · have h2 : ∃ r ∈ rows, r.Value = Value.str mount := by
        obtain ⟨r, hr, hv⟩ := h
        rcases List.mem_cons.mp hr with e | e
        · exact absurd (e ▸ hv) hx
        · exact ⟨r, e, hv⟩
      obtain ⟨pre, r, post, hrows, hpre, hr⟩ := ih h2
      refine ⟨x :: pre, r, post, by simp [hrows], ?_, hr⟩
      intro y hy
      rcases List.mem_cons.mp hy with e | e
      · exact e ▸ hx
      · exact hpre y e

/-- C1. For every walk and every target: whenever the delivered rows are
`pre ++ r :: post` with no match in `pre` and `r` matching, `getSuffixForString`
returns the text after the last `'.'` of `r.Name` (all of `r.Name` when it has no
`'.'`), whatever `post` is; such a first match exists as soon as some row
matches; and the result is `OIDMappingNotFound` exactly when no row matches. -/
theorem getSuffixForString_first_match (s : GoSNMP) (OID mount : String) :
    (∀ pre r post, s.StreamWalk OID = pre ++ r :: post →
        (∀ x ∈ pre, x.Value ≠ Value.str mount) → r.Value = Value.str mount →
        ∃ suffix, getSuffixForString s OID mount = .ok suffix ∧
          ((∃ p, r.Name.data = p ++ '.' :: suffix.data ∧ '.' ∉ suffix.data) ∨
            ('.' ∉ r.Name.data ∧ suffix = r.Name))) ∧
    ((∃ r ∈ s.StreamWalk OID, r.Value = Value.str mount) →
        ∃ pre r post, s.StreamWalk OID = pre ++ r :: post ∧
          (∀ x ∈ pre, x.Value ≠ Value.str mount) ∧ r.Value = Value.str mount) ∧
    (getSuffixForString s OID mount = .error .OIDMappingNotFound ↔
        ∀ r ∈ s.StreamWalk OID, r.Value ≠ Value.str mount) := by
  refine ⟨?_, exists_first_match mount _, range_not_found_iff mount _⟩
  intro pre r post hrows hpre hr
  unfold getSuffixForString
  rw [hrows, range_skip mount pre _ hpre]
  exact range_hit mount r post hr

/-- Witness for C1: the rows `("1","/boot")`, `("2","/")`, `("5","/data")`; the
target `"/"` yields the suffix of the row named `"2"`, the target `"/missing"`
yields `OIDMappingNotFound`. -/
theorem getSuffixForString_first_match_witness :
    (∃ suffix,
        getSuffixForString
            ⟨fun _ => [⟨"1", .str "/boot"⟩, ⟨"2", .str "/"⟩, ⟨"5", .str "/data"⟩],
              fun _ => .ok []⟩ ".1.3.6.1.4.1.2021.9.1.2" "/" = .ok suffix ∧
          ((∃ p, "2".data = p ++ '.' :: suffix.data ∧ '.' ∉ suffix.data) ∨
            ('.' ∉ "2".data ∧ suffix = "2"))) ∧
    getSuffixForString
        ⟨fun _ => [⟨"1", .str "/boot"⟩, ⟨"2", .str "/"⟩, ⟨"5", .str "/data"⟩],
          fun _ => .ok []⟩ ".1.3.6.1.4.1.2021.9.1.2" "/missing" = .error .OIDMappingNotFound :=
  ⟨(getSuffixForString_first_match _ _ "/").1 [⟨"1", .str "/boot"⟩] ⟨"2", .str "/"⟩
      [⟨"5", .str "/data"⟩] rfl (by decide) rfl,
    (getSuffixForString_first_match _ _ "/missing").2.2.mpr (by decide)⟩

/-- The rows of the specification's example, evaluated: `"2"` and the not-found error. -/
theorem getSuffixForString_example :
    getSuffixForString
        ⟨fun _ => [⟨"1", .str "/boot"⟩, ⟨"2", .str "/"⟩, ⟨"5", .str "/data"⟩],
          fun _ => .ok []⟩ ".1.3.6.1.4.1.2021.9.1.2" "/" = .ok "2" ∧
    getSuffixForString
        ⟨fun _ => [⟨".1.3.6.1.4.1.2021.9.1.2.1", .str "/boot"⟩,
            ⟨".1.3.6.1.4.1.2021.9.1.2.2", .str "/"⟩, ⟨".1.3.6.1.4.1.2021.9.1.2.5", .str "/"⟩],
          fun _ => .ok []⟩ ".1.3.6.1.4.1.2021.9.1.2" "/" = .ok "2" := by
  decide

end Snmptool

/-! ## `getAssociatedValue`: the composed OID -/

theorem joinComponents_concat (init : List String) (last : String) (h : init ≠ []) :
    joinComponents (init ++ [last]) = joinComponents init ++ "." ++ last := by
  induction init with
  | nil => exact absurd rfl h
  | cons c cs ih =>
    cases cs with
    | nil => rfl
    | cons d ds =>
      have := ih (by simp)
      simp only [List.cons_append] at this ⊢
      simp only [joinComponents, this, String.append_assoc]

theorem count_joinComponents (comps : List String) (hc : ∀ c ∈ comps, '.' ∉ c.data) :
    (joinComponents comps).data.count '.' = comps.length - 1 := by
  induction comps with
  | nil => rfl
  | cons c cs ih =>
    cases cs with
    | nil =>
      have h : '.' ∉ c.data := hc c (by simp)
      simpa [joinComponents] using List.count_eq_zero_of_not_mem h
    | cons d ds =>
      have h : '.' ∉ c.data := hc c (by simp)
      have ih2 := ih (fun x hx => hc x (by simp [hx]))
      simp only [List.length_cons, Nat.add_sub_cancel] at ih2 ⊢
      simp [joinComponents, String.data_append, List.count_eq_zero_of_not_mem h, ih2]

theorem joinComponents_cons_char (c : Char) (h : String) (t : List String) :
    (joinComponents (⟨c :: h.data⟩ :: t)).data = c :: (joinComponents (h :: t)).data := by
  cases t <;> simp [joinComponents, String.data_append]

/-- Every text is the rendering of a list of components without separator. -/
theorem exists_components (s : String) :
    ∃ comps : List String, (∀ c ∈ comps, '.' ∉ c.data) ∧ joinComponents comps = s := by
  suffices h : ∀ l : List Char, ∃ comps : List String, comps ≠ [] ∧
      (∀ c ∈ comps, '.' ∉ c.data) ∧ (joinComponents comps).data = l by
    obtain ⟨comps, -, hc, hj⟩ := h s.data
    exact ⟨comps, hc, String.ext hj⟩
  intro l
  induction l with
  | nil => exact ⟨[""], by simp, by simp, rfl⟩
  | cons c l ih =>
    obtain ⟨comps, hne, hc, hj⟩ := ih
    cases comps with
    | nil => exact absurd rfl hne
    | cons h t =>
      by_cases hdot : c = '.'
      · refine ⟨"" :: h :: t, by simp, ?_, ?_⟩
        · intro x hx
          rcases List.mem_cons.mp hx with e | e
          · subst e
            simp
          · exact hc x e
        · simp [joinComponents, String.data_append, hj, hdot]
      · refine ⟨⟨c :: h.data⟩ :: t, by simp, ?_, ?_⟩
        · intro x hx
          rcases List.mem_cons.mp hx with e | e
          · subst e
            have := hc h (by simp)
            simp [this, Ne.symm hdot]
          · exact hc x (by simp [e])
        · rw [joinComponents_cons_char, hj]

namespace Snmptool

open Go Gosnmp Cli

theorem trimOID_joinComponents (n : Nat) (comps : List String)
    (hc : ∀ c ∈ comps, '.' ∉ c.data) (hn : n < comps.length) :
    trimOID (joinComponents comps) n = some (joinComponents (comps.rdrop n)) := by
  induction n generalizing comps with
  | zero => simp [trimOID]
  | succ n ih =>
    rcases List.eq_nil_or_concat comps with h | ⟨init, last, h⟩
    · subst h
      simp at hn
    · rw [List.concat_eq_append] at h
      subst h
      have hlen : n < init.length := by
        simp only [List.length_append, List.length_singleton] at hn
        omega
      have hinit : init ≠ [] := by
        intro e
        subst e
        simp at hlen
      have hlast : '.' ∉ last.data := hc last (by simp)
      have hdata : (joinComponents (init ++ [last])).data =
          (joinComponents init).data ++ '.' :: last.data := by
        rw [joinComponents_concat init last hinit]
        simp [String.data_append]
      rw [List.rdrop_concat_succ]
      simp only [trimOID, sliceTo_before_last _ _ _ hdata hlast]
      exact ih init (fun c hmem => hc c (by simp [hmem])) hlen

theorem associatedOID_of_trim (OID base : String) (remelts : Int) (append suffix : String)
    (htrim : trimOID OID remelts.toNat = some base) (hne : append ≠ "")
    (hdot : append.data.head? ≠ some '.') :
    associatedOID OID remelts append suffix = some (base ++ "." ++ append ++ "." ++ suffix) ∧
    associatedOID OID remelts ("." ++ append) suffix =
      some (base ++ "." ++ append ++ "." ++ suffix) := by
  constructor
  · unfold associatedOID
    rw [htrim]
    cases hd : append.data with
    | nil => exact absurd (String.ext hd) hne
    | cons c cs =>
      have hcne : c ≠ '.' := by
        intro e
        apply hdot
        simp [hd, e]
      simp [hcne, String.append_assoc]
  · unfold associatedOID
    rw [htrim]
    have hd : ("." ++ append).data = '.' :: append.data := by simp [String.data_append]
    rw [hd]
    simp [String.append_assoc]

/-- C2. For every base OID with dot-separated components `comps` that contains at
least `trimSegments` separators, every non-empty `replacementSuffix` that does
not start with `'.'` and every `rowIndex`: the composed OID is the base without
its last `trimSegments` components, then `"."` and the suffix, then `"."` and
the row index; and this is the OID on which `getAssociatedValue` performs its
fetch. -/
theorem getAssociatedValue_composed_oid (baseOid : String) (comps : List String)
    (hbase : joinComponents comps = baseOid) (hc : ∀ c ∈ comps, '.' ∉ c.data)
    (trimSegments : Nat) (hn : trimSegments ≤ baseOid.data.count '.')
    (replacementSuffix rowIndex : String) (hne : replacementSuffix ≠ "")
    (hdot : replacementSuffix.data.head? ≠ some '.') :
    associatedOID baseOid trimSegments replacementSuffix rowIndex =
        some (joinComponents (comps.rdrop trimSegments) ++ "." ++ replacementSuffix ++ "." ++
          rowIndex) ∧
    ∀ (s : GoSNMP) (associate : String),
      getSuffixForString s baseOid associate = .ok rowIndex →
      getAssociatedValue s baseOid associate trimSegments replacementSuffix =
        getAssociatedValue.fetch s
          (joinComponents (comps.rdrop trimSegments) ++ "." ++ replacementSuffix ++ "." ++
            rowIndex) := by
  have htrim : trimOID baseOid ((trimSegments : Int)).toNat =
      some (joinComponents (comps.rdrop trimSegments)) := by
    rw [Int.toNat_ofNat]
    subst hbase
    rw [count_joinComponents comps hc] at hn
    rcases Nat.eq_zero_or_pos trimSegments with h0 | hpos
    · subst h0
      simp [trimOID]
    · exact trimOID_joinComponents trimSegments comps hc (by omega)
  have hoid := (associatedOID_of_trim _ _ _ replacementSuffix rowIndex htrim hne hdot).1
  refine ⟨hoid, ?_⟩
  intro s associate hs
  unfold getAssociatedValue
  rw [hs]
  simp only [hoid]

/-- Witness for C2: base `.1.3.6.1.4.1.2021.9.1.2`, one segment trimmed, suffix `"9"`,
row index `"2"` compose to `.1.3.6.1.4.1.2021.9.1.9.2`. -/
theorem getAssociatedValue_composed_oid_witness :
    associatedOID ".1.3.6.1.4.1.2021.9.1.2" 1 "9" "2" = some ".1.3.6.1.4.1.2021.9.1.9.2" :=
  (getAssociatedValue_composed_oid ".1.3.6.1.4.1.2021.9.1.2"
    ["", "1", "3", "6", "1", "4", "1", "2021", "9", "1", "2"] (by decide)
    (by decide) 1 (by decide) "9" "2" (by decide) (by decide)).1

/-- C9, as amended. Whenever the trimming loop ends without a panic on `base`, and
`r` is non-empty and does not start with `'.'`: the composed OID is the same for
the suffix `r` and for the suffix `"." ++ r`, namely `base ++ "." ++ r ++ "." ++
rowIndex`, with one separator between the trimmed base and `r`. -/
theorem associatedOID_separator_normalised (OID base : String) (trimSegments : Int)
    (r rowIndex : String) (htrim : trimOID OID trimSegments.toNat = some base)
    (hne : r ≠ "") (hdot : r.data.head? ≠ some '.') :
    associatedOID OID trimSegments r rowIndex =
        associatedOID OID trimSegments ("." ++ r) rowIndex ∧
    associatedOID OID trimSegments r rowIndex = some (base ++ "." ++ r ++ "." ++ rowIndex) := by
  obtain ⟨h1, h2⟩ := associatedOID_of_trim OID base trimSegments r rowIndex htrim hne hdot
  exact ⟨h1.trans h2.symm, h1⟩

/-- Witness for C9 as amended: the suffixes `"9"` and `".9"`. -/
theorem associatedOID_separator_normalised_witness :
    associatedOID ".1.3.6.1.4.1.2021.9.1.2" 1 "9" "2" =
        associatedOID ".1.3.6.1.4.1.2021.9.1.2" 1 ("." ++ "9") "2" ∧
    associatedOID ".1.3.6.1.4.1.2021.9.1.2" 1 "9" "2" =
        some (".1.3.6.1.4.1.2021.9.1" ++ "." ++ "9" ++ "." ++ "2") :=
  associatedOID_separator_normalised ".1.3.6.1.4.1.2021.9.1.2" ".1.3.6.1.4.1.2021.9.1" 1
    "9" "2" (by decide) (by decide) (by decide)

/-- C9, counterexample: with the empty suffix, the form without a separator panics
on `append[0]`, while the form with a separator composes an OID. -/
theorem associatedOID_empty_suffix :
    associatedOID ".1.3.6.1.4.1.2021.9.1.2" 1 "" "2" = none ∧
    associatedOID ".1.3.6.1.4.1.2021.9.1.2" 1 ("." ++ "") "2" =
      some ".1.3.6.1.4.1.2021.9.1..2" := by
  decide

/-- C5. Whenever the row search succeeds, the OID is composed, and the fetch on it
succeeds with variables `vars`: the result is `NoValueFoundError` if and only if
`vars` is empty, and it is the value of the first variable, without error, when
`vars` is not empty. -/
theorem getAssociatedValue_no_value_iff (s : GoSNMP) (OID associate : String)
    (remelts : Int) (append suffix oid : String) (vars : List SnmpPDU)
    (hrow : getSuffixForString s OID associate = .ok suffix)
    (hoid : associatedOID OID remelts append suffix = some oid)
    (hget : s.Get oid = .ok vars) :
    (getAssociatedValue s OID associate remelts append = .error .NoValueFoundError ↔
        vars = []) ∧
    (∀ v rest, vars = v :: rest →
        getAssociatedValue s OID associate remelts append = .ok v.Value) := by
  have h : getAssociatedValue s OID associate remelts append =
      getAssociatedValue.fetch s oid := by
    unfold getAssociatedValue
    rw [hrow]
    simp only [hoid]
  rw [h]
  unfold getAssociatedValue.fetch
  rw [hget]
  cases vars with
  | nil => simp
  | cons v rest => simp

/-- Witness for C5: a session whose walk finds row `2` and whose fetch of
`.1.3.6.1.4.1.2021.9.1.9.2` succeeds with no variable. -/
theorem getAssociatedValue_no_value_iff_witness :
    getAssociatedValue
        ⟨fun _ => [⟨".1.3.6.1.4.1.2021.9.1.2.2", .str "/"⟩], fun _ => .ok []⟩
        ".1.3.6.1.4.1.2021.9.1.2" "/" 1 "9" = .error .NoValueFoundError :=
  (getAssociatedValue_no_value_iff _ ".1.3.6.1.4.1.2021.9.1.2" "/" 1 "9" "2"
    ".1.3.6.1.4.1.2021.9.1.9.2" [] (by decide) (by decide) rfl).1.mpr rfl

/-- The two outcomes of a successful fetch, evaluated: no variable gives
`NoValueFoundError`, one variable gives its value. -/
theorem getAssociatedValue_example :
    getAssociatedValue
        ⟨fun _ => [⟨".1.3.6.1.4.1.2021.9.1.2.2", .str "/"⟩], fun _ => .ok []⟩
        ".1.3.6.1.4.1.2021.9.1.2" "/" 1 "9" = .error .NoValueFoundError ∧
    getAssociatedValue
        ⟨fun _ => [⟨".1.3.6.1.4.1.2021.9.1.2.2", .str "/"⟩],
          fun oid => if oid = ".1.3.6.1.4.1.2021.9.1.9.2" then
            .ok [⟨".1.3.6.1.4.1.2021.9.1.9.2", .int 42⟩] else .ok []⟩
        ".1.3.6.1.4.1.2021.9.1.2" "/" 1 "9" = .ok (.int 42) := by
  decide

end Snmptool

/-! ## snmpdisk: the default action -/

namespace Snmpdisk

open Go Gosnmp Cli

theorem action_reaches_thresholdCheck {F : Type} (ops : Float64Ops F) (lib : RangeParser F)
    (NewGoSNMP : String → Except GoError GoSNMP) (ctx : Context) (hostname : String)
    (s : GoSNMP) (suffix : String) (sizeVars availVars : List SnmpPDU) (a t : Int)
    (hargs : ctx.args = [hostname]) (hconn : NewGoSNMP hostname = .ok s)
    (hrow : getSuffixForDrive s ctx.mount = .ok suffix) (hsuffix : suffix ≠ "")
    (hsize : s.Get (".1.3.6.1.2.1.25.2.3.1.5." ++ suffix) = .ok sizeVars)
    (havail : s.Get (".1.3.6.1.2.1.25.2.3.1.6." ++ suffix) = .ok availVars)
    (ht : firstInt sizeVars = some t) (ha : firstInt availVars = some a) :
    action ops lib NewGoSNMP ctx =
      thresholdCheck ops lib ctx.mount ctx.warning ctx.critical (freespace ops a t) := by
  unfold action requireHostname createSnmpClient
  simp only [hargs, List.length_singleton, ne_eq, not_true_eq_false, if_false, List.headD_cons,
    hconn, hrow, hsuffix, hsize, havail, ht, ha]

theorem thresholdCheck_cases {F : Type} (ops : Float64Ops F) (lib : RangeParser F)
    (mount warning critical : String) (value : F) :
    (∀ err, lib.Compile critical = .error err →
      thresholdCheck ops lib mount warning critical value =
        .exitError
          ("UNKNOWN: error parsing critical pattern " ++ critical ++ ": " ++ err.GoRepr) 3) ∧
    (∀ cc, lib.Compile critical = .ok cc → lib.Compare cc value = true →
      thresholdCheck ops lib mount warning critical value =
        .exitError ("CRITICAL: " ++ mount ++ " " ++ ops.format value) 2) ∧
    (∀ cc err, lib.Compile critical = .ok cc → lib.Compare cc value = false →
      lib.Compile warning = .error err →
      thresholdCheck ops lib mount warning critical value =
        .exitError
          ("UNKNOWN: error parsing warning pattern " ++ warning ++ ": " ++ err.GoRepr) 3) ∧
    (∀ cc wc, lib.Compile critical = .ok cc → lib.Compare cc value = false →
      lib.Compile warning = .ok wc →
      thresholdCheck ops lib mount warning critical value =
        if lib.Compare wc value then
          .exitError ("WARNING: " ++ mount ++ " " ++ ops.format value) 1
        else .exitError ("OK: " ++ mount ++ " " ++ ops.format value) 0) := by
  refine ⟨?_, ?_, ?_, ?_⟩
  · intro err h
    simp [thresholdCheck, h]
  · intro cc h hc
    simp [thresholdCheck, h, hc]
  · intro cc err h hc hw
    simp [thresholdCheck, h, hc, hw]
  · intro cc wc h hc hw
    simp [thresholdCheck, h, hc, hw]

/-- C3. When both patterns compile, the level is CRITICAL (status 2) if the critical
comparator fires on the value, otherwise WARNING (status 1) if the warning
comparator fires, otherwise OK (status 0); a value on which both fire is
CRITICAL. -/
theorem thresholdCheck_precedence {F : Type} (ops : Float64Ops F) (lib : RangeParser F)
    (mount warning critical : String) (value : F)
    (warningComparator criticalComparator : lib.Comparator)
    (hw : lib.Compile warning = .ok warningComparator)
    (hc : lib.Compile critical = .ok criticalComparator) :
    thresholdCheck ops lib mount warning critical value =
      if lib.Compare criticalComparator value then
        .exitError ("CRITICAL: " ++ mount ++ " " ++ ops.format value) 2
      else if lib.Compare warningComparator value then
        .exitError ("WARNING: " ++ mount ++ " " ++ ops.format value) 1
      else .exitError ("OK: " ++ mount ++ " " ++ ops.format value) 0 := by
  obtain ⟨-, h2, -, h4⟩ := thresholdCheck_cases ops lib mount warning critical value
  cases hcmp : lib.Compare criticalComparator value with
  | true => simpa using h2 _ hc hcmp
  | false => simpa using h4 _ _ hc hcmp hw

/-- Witness for C3: warning `"80"`, critical `"90"`; the values 95, 85 and 50 give
CRITICAL, WARNING and OK. -/
theorem thresholdCheck_precedence_witness :
    thresholdCheck Exact.ops Exact.parser "/" "80" "90" (.fin ⟨95, 1⟩) =
        .exitError "CRITICAL: / 95.00" 2 ∧
    thresholdCheck Exact.ops Exact.parser "/" "80" "90" (.fin ⟨85, 1⟩) =
        .exitError "WARNING: / 85.00" 1 ∧
    thresholdCheck Exact.ops Exact.parser "/" "80" "90" (.fin ⟨50, 1⟩) =
        .exitError "OK: / 50.00" 0 :=
  ⟨thresholdCheck_precedence Exact.ops Exact.parser "/" "80" "90" (.fin ⟨95, 1⟩)
      ⟨false, .fin ⟨0, 1⟩, .fin ⟨80, 1⟩⟩ ⟨false, .fin ⟨0, 1⟩, .fin ⟨90, 1⟩⟩ rfl rfl,
    thresholdCheck_precedence Exact.ops Exact.parser "/" "80" "90" (.fin ⟨85, 1⟩)
      ⟨false, .fin ⟨0, 1⟩, .fin ⟨80, 1⟩⟩ ⟨false, .fin ⟨0, 1⟩, .fin ⟨90, 1⟩⟩ rfl rfl,
    thresholdCheck_precedence Exact.ops Exact.parser "/" "80" "90" (.fin ⟨50, 1⟩)
      ⟨false, .fin ⟨0, 1⟩, .fin ⟨80, 1⟩⟩ ⟨false, .fin ⟨0, 1⟩, .fin ⟨90, 1⟩⟩ rfl rfl⟩

/-- C6, as amended. A critical pattern that does not compile gives UNKNOWN (status
3) with a message naming the critical pattern, whatever the warning pattern and
the value.  A warning pattern that does not compile gives UNKNOWN (status 3)
with a message naming the warning pattern when the critical pattern compiles and
its comparator does not fire on the value; when it fires, the result is
CRITICAL (status 2) and the warning pattern is not examined. -/
theorem thresholdCheck_parse_failure {F : Type} (ops : Float64Ops F) (lib : RangeParser F)
    (mount warning critical : String) (value : F) :
    (∀ err, lib.Compile critical = .error err →
      thresholdCheck ops lib mount warning critical value =
        .exitError
          ("UNKNOWN: error parsing critical pattern " ++ critical ++ ": " ++ err.GoRepr) 3) ∧
    (∀ cc err, lib.Compile critical = .ok cc → lib.Compare cc value = false →
      lib.Compile warning = .error err →
      thresholdCheck ops lib mount warning critical value =
        .exitError
          ("UNKNOWN: error parsing warning pattern " ++ warning ++ ": " ++ err.GoRepr) 3) ∧
    (∀ cc, lib.Compile critical = .ok cc → lib.Compare cc value = true →
      thresholdCheck ops lib mount warning critical value =
        .exitError ("CRITICAL: " ++ mount ++ " " ++ ops.format value) 2) := by
  obtain ⟨h1, h2, h3, -⟩ := thresholdCheck_cases ops lib mount warning critical value
  exact ⟨h1, h3, h2⟩

/-- Witness for C6 as amended: an unparseable critical pattern; an unparseable
warning pattern with the value 50 below the critical range's bound; the same
with the value 95 above it. -/
theorem thresholdCheck_parse_failure_witness :
    thresholdCheck Exact.ops Exact.parser "/" "80" "bogus" (.fin ⟨95, 1⟩) =
        .exitError "UNKNOWN: error parsing critical pattern bogus: ParseError(bogus)" 3 ∧
    thresholdCheck Exact.ops Exact.parser "/" "bogus" "90" (.fin ⟨50, 1⟩) =
        .exitError "UNKNOWN: error parsing warning pattern bogus: ParseError(bogus)" 3 ∧
    thresholdCheck Exact.ops Exact.parser "/" "bogus" "90" (.fin ⟨95, 1⟩) =
        .exitError "CRITICAL: / 95.00" 2 :=
  ⟨(thresholdCheck_parse_failure Exact.ops Exact.parser "/" "80" "bogus" (.fin ⟨95, 1⟩)).1
      (Exact.parseError "bogus") rfl,
    (thresholdCheck_parse_failure Exact.ops Exact.parser "/" "bogus" "90" (.fin ⟨50, 1⟩)).2.1
      ⟨false, .fin ⟨0, 1⟩, .fin ⟨90, 1⟩⟩ (Exact.parseError "bogus") rfl rfl rfl,
    (thresholdCheck_parse_failure Exact.ops Exact.parser "/" "bogus" "90" (.fin ⟨95, 1⟩)).2.2
      ⟨false, .fin ⟨0, 1⟩, .fin ⟨90, 1⟩⟩ rfl rfl⟩

/-- C6, counterexample: size 100, available 95, critical `"90"` and an unparseable
warning pattern: the run reports CRITICAL with status 2, not UNKNOWN. -/
theorem action_unparseable_warning_critical :
    action Exact.ops Exact.parser
        (fun _ => .ok (Exact.host (Exact.intVar 100) (Exact.intVar 95)))
        ⟨["server"], "/", "bogus", "90"⟩ = .exitError "CRITICAL: / 95.00" 2 ∧
    Exact.parser.Compile "bogus" = .error (Exact.parseError "bogus") := by
  constructor
  · decide
  · rfl

theorem thresholdCheck_ne_panic {F : Type} (ops : Float64Ops F) (lib : RangeParser F)
    (mount warning critical : String) (value : F) :
    thresholdCheck ops lib mount warning critical value ≠ .panic := by
  unfold thresholdCheck
  split
  · simp
  · split
    · simp
    · split
      · simp
      · split <;> simp

/-- C7, as amended. When the matched row's size is 0, the action does not panic: it
passes the quotient `float64(a) * 100 / float64(0)` to the threshold check like
any other value, and when both patterns compile the exit status is 0, 1 or 2
according to the comparators, never 3. -/
theorem action_zero_size {F : Type} (ops : Float64Ops F) (lib : RangeParser F)
    (NewGoSNMP : String → Except GoError GoSNMP) (ctx : Context) (hostname : String)
    (s : GoSNMP) (suffix : String) (sizeVars availVars : List SnmpPDU) (a : Int)
    (hargs : ctx.args = [hostname]) (hconn : NewGoSNMP hostname = .ok s)
    (hrow : getSuffixForDrive s ctx.mount = .ok suffix) (hsuffix : suffix ≠ "")
    (hsize : s.Get (".1.3.6.1.2.1.25.2.3.1.5." ++ suffix) = .ok sizeVars)
    (havail : s.Get (".1.3.6.1.2.1.25.2.3.1.6." ++ suffix) = .ok availVars)
    (ht : firstInt sizeVars = some 0) (ha : firstInt availVars = some a) :
    action ops lib NewGoSNMP ctx =
        thresholdCheck ops lib ctx.mount ctx.warning ctx.critical
          (ops.div (ops.mul (ops.ofInt a) (ops.ofInt 100)) (ops.ofInt 0)) ∧
    action ops lib NewGoSNMP ctx ≠ .panic ∧
    ∀ wc cc, lib.Compile ctx.warning = .ok wc → lib.Compile ctx.critical = .ok cc →
      ∃ message exitCode, action ops lib NewGoSNMP ctx = .exitError message exitCode ∧
        (exitCode = 0 ∨ exitCode = 1 ∨ exitCode = 2) := by
  have h := action_reaches_thresholdCheck ops lib NewGoSNMP ctx hostname s suffix sizeVars
    availVars a 0 hargs hconn hrow hsuffix hsize havail ht ha
  refine ⟨h, ?_, ?_⟩
  · rw [h]
    exact thresholdCheck_ne_panic _ _ _ _ _ _
  · intro wc cc hw hc
    rw [h]
    obtain ⟨-, h2, -, h4⟩ := thresholdCheck_cases ops lib ctx.mount ctx.warning ctx.critical
      (freespace ops a 0)
    cases hcmp : lib.Compare cc (freespace ops a 0) with
    | true => exact ⟨_, 2, h2 cc hc hcmp, by simp⟩
    | false =>
      rw [h4 cc wc hc hcmp hw]
      cases lib.Compare wc (freespace ops a 0) with
      | true => exact ⟨_, 1, if_pos rfl, by simp⟩
      | false => exact ⟨_, 0, if_neg (by simp), by simp⟩

/-- Witness for C7 as amended: size 0 and 50 units available, warning `"80"`,
critical `"90"`. -/
theorem action_zero_size_witness :
    action Exact.ops Exact.parser
        (fun _ => .ok (Exact.host (Exact.intVar 0) (Exact.intVar 50)))
        ⟨["server"], "/", "80", "90"⟩ =
      thresholdCheck Exact.ops Exact.parser "/" "80" "90"
        (Exact.ops.div (Exact.ops.mul (Exact.ops.ofInt 50) (Exact.ops.ofInt 100))
          (Exact.ops.ofInt 0)) ∧
    action Exact.ops Exact.parser
        (fun _ => .ok (Exact.host (Exact.intVar 0) (Exact.intVar 50)))
        ⟨["server"], "/", "80", "90"⟩ ≠ .panic :=
  have h := action_zero_size Exact.ops Exact.parser
    (fun _ => .ok (Exact.host (Exact.intVar 0) (Exact.intVar 50)))
    ⟨["server"], "/", "80", "90"⟩ "server" (Exact.host (Exact.intVar 0) (Exact.intVar 50)) "2"
    (Exact.intVar 0) (Exact.intVar 50) 50 rfl rfl (by decide) (by decide) rfl rfl rfl rfl
  ⟨h.1, h.2.1⟩

/-- C7, counterexample: size 0 and 50 units available with warning `"80"` and
critical `"90"`: the quotient is `+Inf`, it reaches the critical comparator, and
the run reports CRITICAL with status 2, not UNKNOWN. -/
theorem zero_size_reports_critical :
    action Exact.ops Exact.parser
        (fun _ => .ok (Exact.host (Exact.intVar 0) (Exact.intVar 50)))
        ⟨["server"], "/", "80", "90"⟩ = .exitError "CRITICAL: / +Inf" 2 ∧
    freespace Exact.ops 50 0 = .inf false := by
  decide

theorem thresholdCheck_exit_status {F : Type} (ops : Float64Ops F) (lib : RangeParser F)
    (mount warning critical : String) (value : F) (message : String) (exitCode : Int)
    (h : thresholdCheck ops lib mount warning critical value = .exitError message exitCode) :
    exitCode = 0 ∨ exitCode = 1 ∨ exitCode = 2 ∨ exitCode = 3 := by
  unfold thresholdCheck at h
  split at h
  · injection h with _ h2
    omega
  · split at h
    · injection h with _ h2
      omega
    · split at h
      · injection h with _ h2
        omega
      · split at h
        · injection h with _ h2
          omega
        · injection h with _ h2
          omega

theorem requireHostname_error (c : Context) (err : ActionResult)
    (h : requireHostname c = .error err) : err = .exitError "A hostname is required" 3 := by
  unfold requireHostname at h
  split at h
  · injection h with h
    exact h.symm
  · injection h

theorem createSnmpClient_error (NewGoSNMP : String → Except GoError GoSNMP)
    (hostname : String) (err : ActionResult)
    (h : createSnmpClient NewGoSNMP hostname = .error err) :
    ∃ message, err = .exitError message 3 := by
  unfold createSnmpClient at h
  split at h
  · injection h with h
    exact ⟨_, h.symm⟩
  · injection h

/-- Every exit status of the default action is 0, 1, 2 or 3. -/
theorem action_exit_status {F : Type} (ops : Float64Ops F) (lib : RangeParser F)
    (NewGoSNMP : String → Except GoError GoSNMP) (ctx : Context) (message : String)
    (exitCode : Int) (h : action ops lib NewGoSNMP ctx = .exitError message exitCode) :
    exitCode = 0 ∨ exitCode = 1 ∨ exitCode = 2 ∨ exitCode = 3 := by
  unfold action at h
  split at h
  · rename_i err heq
    rw [requireHostname_error ctx err heq] at h
    injection h with _ h2
    omega
  · split at h
    · rename_i err heq
      obtain ⟨m, hm⟩ := createSnmpClient_error NewGoSNMP _ err heq
      rw [hm] at h
      injection h with _ h2
      omega
    · repeat' split at h
      all_goals first
        | exact thresholdCheck_exit_status _ _ _ _ _ _ _ _ h
        | (injection h with _ h2; omega)
        | exact absurd h (by simp)

end Snmpdisk

/-! ## snmptool: the `disk` and `inodes` actions -/

namespace Snmptool

open Go Gosnmp Cli

/-- Every error of `getAssociatedValue`, the empty result included, ends the
`disk` and `inodes` actions with status 3. -/
theorem checkAction_error_status {F : Type} (ops : Float64Ops F) (lib : RangeParser F)
    (NewGoSNMP : String → Except GoError GoSNMP) (column : String) (c : Context)
    (hostname : String) (s : GoSNMP) (err : Err) (hargs : c.args = [hostname])
    (hconn : NewGoSNMP hostname = .ok s)
    (hval : getAssociatedValue s ".1.3.6.1.4.1.2021.9.1.2" c.mount 1 column = .error err) :
    checkAction ops lib NewGoSNMP column c =
      .exitError ("Couldn't find drive free space:" ++ err.Error) 3 := by
  unfold checkAction requireHostname createSnmpClient
  simp only [hargs, List.length_singleton, ne_eq, not_true_eq_false, if_false, List.headD_cons,
    hconn, hval]

end Snmptool

/-! ## snmpdisk: the percentage -/

namespace Exact

theorem Frac.normalize_den_ne_zero (n : Int) (d : Nat) (hd : d ≠ 0) :
    (Frac.normalize n d).den ≠ 0 := by
  unfold Frac.normalize
  have hg : Nat.gcd n.natAbs d ∣ d := Nat.gcd_dvd_right _ _
  have hpos : 0 < d := Nat.pos_of_ne_zero hd
  have hle : Nat.gcd n.natAbs d ≤ d := Nat.le_of_dvd hpos hg
  have hgpos : 0 < Nat.gcd n.natAbs d := Nat.gcd_pos_of_pos_right _ hpos
  exact Nat.ne_of_gt (Nat.div_pos hle hgpos)

theorem Frac.normalize_toRat (n : Int) (d : Nat) (hd : d ≠ 0) :
    (Frac.normalize n d).toRat = (n : ℚ) / (d : ℚ) := by
  unfold Frac.normalize Frac.toRat
  have hpos : 0 < d := Nat.pos_of_ne_zero hd
  have hgpos : 0 < Nat.gcd n.natAbs d := Nat.gcd_pos_of_pos_right _ hpos
  have hgd : Nat.gcd n.natAbs d ∣ d := Nat.gcd_dvd_right _ _
  have hgn : ((Nat.gcd n.natAbs d : Nat) : Int) ∣ n := by
    have h := Nat.gcd_dvd_left n.natAbs d
    exact Int.natCast_dvd.mpr h
  have hg0 : ((Nat.gcd n.natAbs d : Nat) : ℚ) ≠ 0 := by
    exact_mod_cast Nat.ne_of_gt hgpos
  have hd0 : (d : ℚ) ≠ 0 := by exact_mod_cast hd
  have h1 : ((n / ((Nat.gcd n.natAbs d : Nat) : Int) : Int) : ℚ) =
      (n : ℚ) / ((Nat.gcd n.natAbs d : Nat) : ℚ) := by
    rw [Int.cast_div hgn (by exact_mod_cast hg0)]
    norm_cast
  have h2 : ((d / Nat.gcd n.natAbs d : Nat) : ℚ) = (d : ℚ) / ((Nat.gcd n.natAbs d : Nat) : ℚ) :=
    Nat.cast_div hgd hg0
  simp only [h1, h2]
  field_simp

theorem ExactFloat.val_ofInt (n : Int) : (ExactFloat.ofInt n).val = some (n : ℚ) := by
  simp [ExactFloat.ofInt, ExactFloat.val, Frac.toRat]

theorem ExactFloat.val_fin {x : ExactFloat} {p : ℚ} (h : x.val = some p) :
    ∃ a : Frac, x = .fin a ∧ a.den ≠ 0 ∧ a.toRat = p := by
  cases x with
  | nan => simp [ExactFloat.val] at h
  | inf s => simp [ExactFloat.val] at h
  | fin a =>
    by_cases hden : a.den = 0
    · simp [ExactFloat.val, hden] at h
    · refine ⟨a, rfl, hden, ?_⟩
      simpa [ExactFloat.val, hden] using h

theorem ExactFloat.val_mul (x y : ExactFloat) (p q : ℚ) (hx : x.val = some p)
    (hy : y.val = some q) : (x.mul y).val = some (p * q) := by
  obtain ⟨a, rfl, ha, rfl⟩ := ExactFloat.val_fin hx
  obtain ⟨b, rfl, hb, rfl⟩ := ExactFloat.val_fin hy
  have hden : a.den * b.den ≠ 0 := Nat.mul_ne_zero ha hb
  have h1 := Frac.normalize_den_ne_zero (a.num * b.num) (a.den * b.den) hden
  have h2 := Frac.normalize_toRat (a.num * b.num) (a.den * b.den) hden
  have ha0 : (a.den : ℚ) ≠ 0 := by exact_mod_cast ha
  have hb0 : (b.den : ℚ) ≠ 0 := by exact_mod_cast hb
  simp only [ExactFloat.mul, ExactFloat.val, Frac.mul, h1, if_false, h2, Option.some.injEq]
  simp only [Frac.toRat]
  push_cast
  field_simp

theorem ExactFloat.val_div (x y : ExactFloat) (p q : ℚ) (hx : x.val = some p)
    (hy : y.val = some q) (hq : q ≠ 0) : (x.div y).val = some (p / q) := by
  obtain ⟨a, rfl, ha, rfl⟩ := ExactFloat.val_fin hx
  obtain ⟨b, rfl, hb, rfl⟩ := ExactFloat.val_fin hy
  have ha0 : (a.den : ℚ) ≠ 0 := by exact_mod_cast ha
  have hb0 : (b.den : ℚ) ≠ 0 := by exact_mod_cast hb
  have hnum : b.num ≠ 0 := by
    intro e
    apply hq
    simp [Frac.toRat, e]
  have habs : b.num.natAbs ≠ 0 := Int.natAbs_ne_zero.mpr hnum
  have hden : a.den * b.num.natAbs ≠ 0 := Nat.mul_ne_zero ha habs
  have h1 := Frac.normalize_den_ne_zero (a.num * b.den * b.num.sign) (a.den * b.num.natAbs) hden
  have h2 := Frac.normalize_toRat (a.num * b.den * b.num.sign) (a.den * b.num.natAbs) hden
  have hn0 : (b.num : ℚ) ≠ 0 := by exact_mod_cast hnum
  simp only [ExactFloat.div, hnum, if_false, ExactFloat.val, Frac.div, h1, h2,
    Option.some.injEq]
  simp only [Frac.toRat]
  rcases lt_or_gt_of_ne hnum with hneg | hpos
  · have hs : b.num.sign = -1 := Int.sign_eq_neg_one_of_neg hneg
    have hab : ((b.num.natAbs : Nat) : ℚ) = -(b.num : ℚ) := by
      rw [Nat.cast_natAbs, abs_of_neg hneg, Int.cast_neg]
    rw [hs, Nat.cast_mul, hab]
    push_cast
    field_simp
  · have hs : b.num.sign = 1 := Int.sign_eq_one_of_pos hpos
    have hab : ((b.num.natAbs : Nat) : ℚ) = (b.num : ℚ) := by
      rw [Nat.cast_natAbs, abs_of_pos hpos]
    rw [hs, Nat.cast_mul, hab]
    push_cast
    field_simp

end Exact

namespace Snmpdisk

open Go Gosnmp Cli

/-- C8, as amended. The metric handed to the threshold check (and printed by it) is
the `float64` value `float64(available) * 100 / float64(total)`.  In every
`float64` semantics whose conversion, product and quotient are exact whenever
the exact result is representable (`Rep`), it has the value of the exact
quotient `available * 100 / total` as soon as `available`, `100`, `total`, the
product and the quotient are representable and `total` is not zero. -/
theorem freespace_exact_when_representable {F : Type} (ops : Float64Ops F)
    (lib : RangeParser F) (val : F → Option ℚ) (Rep : ℚ → Prop)
    (hof : ∀ n : Int, Rep n → val (ops.ofInt n) = some (n : ℚ))
    (hmul : ∀ x y p q, val x = some p → val y = some q → Rep (p * q) →
      val (ops.mul x y) = some (p * q))
    (hdiv : ∀ x y p q, val x = some p → val y = some q → q ≠ 0 → Rep (p / q) →
      val (ops.div x y) = some (p / q))
    (NewGoSNMP : String → Except GoError GoSNMP) (ctx : Context) (hostname : String)
    (s : GoSNMP) (suffix : String) (sizeVars availVars : List SnmpPDU)
    (available total : Int)
    (hargs : ctx.args = [hostname]) (hconn : NewGoSNMP hostname = .ok s)
    (hrow : getSuffixForDrive s ctx.mount = .ok suffix) (hsuffix : suffix ≠ "")
    (hsize : s.Get (".1.3.6.1.2.1.25.2.3.1.5." ++ suffix) = .ok sizeVars)
    (havail : s.Get (".1.3.6.1.2.1.25.2.3.1.6." ++ suffix) = .ok availVars)
    (ht : firstInt sizeVars = some total) (ha : firstInt availVars = some available)
    (htotal : total ≠ 0) (hra : Rep available) (hr100 : Rep 100) (hrt : Rep total)
    (hrp : Rep ((available : ℚ) * 100)) (hrq : Rep ((available : ℚ) * 100 / total)) :
    action ops lib NewGoSNMP ctx =
        thresholdCheck ops lib ctx.mount ctx.warning ctx.critical
          (ops.div (ops.mul (ops.ofInt available) (ops.ofInt 100)) (ops.ofInt total)) ∧
    val (ops.div (ops.mul (ops.ofInt available) (ops.ofInt 100)) (ops.ofInt total)) =
        some ((available : ℚ) * 100 / total) := by
  refine ⟨action_reaches_thresholdCheck ops lib NewGoSNMP ctx hostname s suffix sizeVars
    availVars available total hargs hconn hrow hsuffix hsize havail ht ha, ?_⟩
  have h1 : val (ops.ofInt available) = some (available : ℚ) := hof available hra
  have h2 : val (ops.ofInt 100) = some (100 : ℚ) := by
    have := hof 100 (by exact_mod_cast hr100)
    exact_mod_cast this
  have h3 : val (ops.ofInt total) = some (total : ℚ) := hof total hrt
  have h4 := hmul _ _ _ _ h1 h2 hrp
  have ht0 : (total : ℚ) ≠ 0 := by exact_mod_cast htotal
  exact hdiv _ _ _ _ h4 h3 ht0 hrq

/-- Witness for C8 as amended: size 1000 and 250 units available, on the carrier
whose finite arithmetic is exact. -/
theorem freespace_exact_when_representable_witness :
    action Exact.ops Exact.parser
        (fun _ => .ok (Exact.host (Exact.intVar 1000) (Exact.intVar 250)))
        ⟨["server"], "/", "80", "90"⟩ =
      thresholdCheck Exact.ops Exact.parser "/" "80" "90"
        (Exact.ops.div (Exact.ops.mul (Exact.ops.ofInt 250) (Exact.ops.ofInt 100))
          (Exact.ops.ofInt 1000)) ∧
    Exact.ExactFloat.val
        (Exact.ops.div (Exact.ops.mul (Exact.ops.ofInt 250) (Exact.ops.ofInt 100))
          (Exact.ops.ofInt 1000)) =
      some (((250 : Int) : ℚ) * 100 / ((1000 : Int) : ℚ)) :=
  freespace_exact_when_representable Exact.ops Exact.parser Exact.ExactFloat.val
    (fun _ => True) (fun n _ => Exact.ExactFloat.val_ofInt n)
    (fun x y p q hx hy _ => Exact.ExactFloat.val_mul x y p q hx hy)
    (fun x y p q hx hy hq _ => Exact.ExactFloat.val_div x y p q hx hy hq)
    (fun _ => .ok (Exact.host (Exact.intVar 1000) (Exact.intVar 250)))
    ⟨["server"], "/", "80", "90"⟩ "server" (Exact.host (Exact.intVar 1000) (Exact.intVar 250))
    "2" (Exact.intVar 1000) (Exact.intVar 250) 250 1000 rfl rfl (by decide) (by decide)
    rfl rfl rfl rfl (by decide) trivial trivial trivial trivial trivial

/-- C8, counterexample: available 1 and total 3.  Every finite `float64` is an
integer divided by a power of two, and `1 * 100 / 3` is not: in no `float64`
semantics does the metric have the value of the exact quotient. -/
theorem freespace_one_third_inexact :
    ¬∃ (F : Type) (ops : Float64Ops F) (val : F → Option ℚ),
      (∀ x q, val x = some q → ∃ (m : ℤ) (k : ℕ), q = (m : ℚ) / 2 ^ k) ∧
      val (freespace ops 1 3) = some (((1 : Int) : ℚ) * 100 / ((3 : Int) : ℚ)) := by
  rintro ⟨F, ops, val, hdyadic, h⟩
  obtain ⟨m, k, hq⟩ := hdyadic _ _ h
  have hpow : ((2 : ℚ) ^ k) ≠ 0 := pow_ne_zero _ (by norm_num)
  have hQ : (100 : ℚ) * 2 ^ k = 3 * (m : ℚ) := by
    field_simp at hq
    linarith
  have hZ : (100 : ℤ) * 2 ^ k = 3 * m := by exact_mod_cast hQ
  have hdvd : (3 : ℤ) ∣ 100 * 2 ^ k := ⟨m, hZ⟩
  have hp : Prime (3 : ℤ) := Int.prime_three
  rcases hp.dvd_or_dvd hdvd with h1 | h1
  · norm_num at h1
  · have := hp.dvd_of_dvd_pow h1
    norm_num at this

/-- Size 1000 and 250 units available, evaluated: 25, printed `25.00`. -/
theorem freespace_example :
    freespace Exact.ops 250 1000 = .fin ⟨25, 1⟩ ∧
    Exact.ExactFloat.format (freespace Exact.ops 250 1000) = "25.00" := by
  decide

end Snmpdisk

/-! ## The exit statuses -/

theorem take_two_append (lit rest : String) (h : 2 ≤ lit.data.length) :
    (lit ++ rest).data.take 2 = lit.data.take 2 := by
  rw [String.data_append, List.take_append_of_le_length h]

theorem take_two_of_level (message lit : String) (h : 2 ≤ lit.data.length)
    (hm : ∃ rest, message = lit ++ rest) : message.data.take 2 = lit.data.take 2 := by
  obtain ⟨rest, rfl⟩ := hm
  exact take_two_append lit rest h

theorem followsConvention_failure (message : String)
    (hok : message.data.take 2 ≠ ['O', 'K']) (hwarning : message.data.take 2 ≠ ['W', 'A'])
    (hcritical : message.data.take 2 ≠ ['C', 'R']) : followsConvention message 3 := by
  have h0 : ¬∃ rest, message = "OK: " ++ rest :=
    fun h => hok (take_two_of_level message "OK: " (by decide) h)
  have h1 : ¬∃ rest, message = "WARNING: " ++ rest :=
    fun h => hwarning (take_two_of_level message "WARNING: " (by decide) h)
  have h2 : ¬∃ rest, message = "CRITICAL: " ++ rest :=
    fun h => hcritical (take_two_of_level message "CRITICAL: " (by decide) h)
  refine ⟨⟨fun h => absurd h (by decide), fun h => absurd h h0⟩,
    ⟨fun h => absurd h (by decide), fun h => absurd h h1⟩,
    ⟨fun h => absurd h (by decide), fun h => absurd h h2⟩, ⟨fun _ => ?_, fun _ => rfl⟩⟩
  rintro (h | h | h)
  · exact h0 h
  · exact h1 h
  · exact h2 h

theorem followsConvention_failure_append (lit rest : String) (hlen : 2 ≤ lit.data.length)
    (hok : lit.data.take 2 ≠ ['O', 'K']) (hwarning : lit.data.take 2 ≠ ['W', 'A'])
    (hcritical : lit.data.take 2 ≠ ['C', 'R']) : followsConvention (lit ++ rest) 3 := by
  have h := take_two_append lit rest hlen
  exact followsConvention_failure _ (h ▸ hok) (h ▸ hwarning) (h ▸ hcritical)

theorem followsConvention_ok (message rest : String) (h : message = "OK: " ++ rest) :
    followsConvention message 0 := by
  have ht : message.data.take 2 = ['O', 'K'] :=
    take_two_of_level message "OK: " (by decide) ⟨rest, h⟩
  have h1 : ¬∃ r, message = "WARNING: " ++ r := fun hw => by
    have := take_two_of_level message "WARNING: " (by decide) hw
    rw [ht] at this
    exact absurd this (by decide)
  have h2 : ¬∃ r, message = "CRITICAL: " ++ r := fun hc => by
    have := take_two_of_level message "CRITICAL: " (by decide) hc
    rw [ht] at this
    exact absurd this (by decide)
  exact ⟨⟨fun _ => ⟨rest, h⟩, fun _ => rfl⟩,
    ⟨fun e => absurd e (by decide), fun e => absurd e h1⟩,
    ⟨fun e => absurd e (by decide), fun e => absurd e h2⟩,
    ⟨fun e => absurd e (by decide), fun e => absurd (Or.inl ⟨rest, h⟩) e⟩⟩

theorem followsConvention_warning (message rest : String) (h : message = "WARNING: " ++ rest) :
    followsConvention message 1 := by
  have ht : message.data.take 2 = ['W', 'A'] :=
    take_two_of_level message "WARNING: " (by decide) ⟨rest, h⟩
  have h0 : ¬∃ r, message = "OK: " ++ r := fun hw => by
    have := take_two_of_level message "OK: " (by decide) hw
    rw [ht] at this
    exact absurd this (by decide)
  have h2 : ¬∃ r, message = "CRITICAL: " ++ r := fun hc => by
    have := take_two_of_level message "CRITICAL: " (by decide) hc
    rw [ht] at this
    exact absurd this (by decide)
  exact ⟨⟨fun e => absurd e (by decide), fun e => absurd e h0⟩,
    ⟨fun _ => ⟨rest, h⟩, fun _ => rfl⟩,
    ⟨fun e => absurd e (by decide), fun e => absurd e h2⟩,
    ⟨fun e => absurd e (by decide), fun e => absurd (Or.inr (Or.inl ⟨rest, h⟩)) e⟩⟩

theorem followsConvention_critical (message rest : String)
    (h : message = "CRITICAL: " ++ rest) : followsConvention message 2 := by
  have ht : message.data.take 2 = ['C', 'R'] :=
    take_two_of_level message "CRITICAL: " (by decide) ⟨rest, h⟩
  have h0 : ¬∃ r, message = "OK: " ++ r := fun hw => by
    have := take_two_of_level message "OK: " (by decide) hw
    rw [ht] at this
    exact absurd this (by decide)
  have h1 : ¬∃ r, message = "WARNING: " ++ r := fun hc => by
    have := take_two_of_level message "WARNING: " (by decide) hc
    rw [ht] at this
    exact absurd this (by decide)
  exact ⟨⟨fun e => absurd e (by decide), fun e => absurd e h0⟩,
    ⟨fun e => absurd e (by decide), fun e => absurd e h1⟩,
    ⟨fun _ => ⟨rest, h⟩, fun _ => rfl⟩,
    ⟨fun e => absurd e (by decide), fun e => absurd (Or.inr (Or.inr ⟨rest, h⟩)) e⟩⟩

namespace Snmpdisk

open Go Gosnmp Cli

theorem thresholdCheck_convention {F : Type} (ops : Float64Ops F) (lib : RangeParser F)
    (mount warning critical : String) (value : F) (message : String) (exitCode : Int)
    (h : thresholdCheck ops lib mount warning critical value = .exitError message exitCode) :
    followsConvention message exitCode := by
  unfold thresholdCheck at h
  split at h
  · injection h with h1 h2
    subst h1 h2
    simp only [String.append_assoc]
    exact followsConvention_failure_append _ _ (by decide) (by decide) (by decide) (by decide)
  · split at h
    · injection h with h1 h2
      subst h1 h2
      exact followsConvention_critical _ _ (String.append_assoc _ _ _)
    · split at h
      · injection h with h1 h2
        subst h1 h2
        simp only [String.append_assoc]
        exact followsConvention_failure_append _ _ (by decide) (by decide) (by decide)
          (by decide)
      · split at h
        · injection h with h1 h2
          subst h1 h2
          exact followsConvention_warning _ _ (String.append_assoc _ _ _)
        · injection h with h1 h2
          subst h1 h2
          exact followsConvention_ok _ _ (String.append_assoc _ _ _)

end Snmpdisk

namespace Cli

open Go Gosnmp

theorem createSnmpClient_error_message (NewGoSNMP : String → Except GoError GoSNMP)
    (hostname : String) (err : ActionResult)
    (h : createSnmpClient NewGoSNMP hostname = .error err) :
    ∃ rest, err = .exitError ("Error connecting to " ++ rest) 3 := by
  unfold createSnmpClient at h
  split at h
  · injection h with h
    exact ⟨_, by rw [← h, String.append_assoc, String.append_assoc]⟩
  · injection h

end Cli

namespace Gosnmp

theorem sendPacket_ok_ne_nil (reply : Except Go.GoError (List SnmpPDU)) (vars : List SnmpPDU)
    (h : sendPacket reply = .ok vars) : vars ≠ [] := by
  unfold sendPacket at h
  split at h
  · injection h
  · injection h
  · injection h with h
    rw [← h]
    simp

end Gosnmp

namespace Snmpdisk

open Go Gosnmp Cli

theorem firstInt_none (vars : List SnmpPDU) (hne : vars ≠ []) (h : firstInt vars = none) :
    ∃ v rest, vars = v :: rest ∧ ∀ n, v.Value ≠ Value.int n := by
  cases vars with
  | nil => exact absurd rfl hne
  | cons v rest =>
    refine ⟨v, rest, rfl, ?_⟩
    intro n hn
    simp [firstInt, hn] at h

/-- The default action, as written, reads the first variable without a length
check: were `Get` to succeed with zero variables for the size, it would panic.
The sibling `getAssociatedValue` has the check (lines 59-61). -/
theorem action_reads_unchecked {F : Type} (ops : Float64Ops F) (lib : RangeParser F)
    (NewGoSNMP : String → Except GoError GoSNMP) (ctx : Context) (hostname : String)
    (s : GoSNMP) (suffix : String) (availVars : List SnmpPDU)
    (hargs : ctx.args = [hostname]) (hconn : NewGoSNMP hostname = .ok s)
    (hrow : getSuffixForDrive s ctx.mount = .ok suffix) (hsuffix : suffix ≠ "")
    (hsize : s.Get (".1.3.6.1.2.1.25.2.3.1.5." ++ suffix) = .ok [])
    (havail : s.Get (".1.3.6.1.2.1.25.2.3.1.6." ++ suffix) = .ok availVars) :
    action ops lib NewGoSNMP ctx = .panic := by
  unfold action requireHostname createSnmpClient
  simp only [hargs, List.length_singleton, ne_eq, not_true_eq_false, if_false, List.headD_cons,
    hconn, hrow, hsuffix, hsize, havail]
  cases firstInt availVars <;> simp [firstInt]

theorem action_panic_cause {F : Type} (ops : Float64Ops F) (lib : RangeParser F)
    (NewGoSNMP : String → Except GoError GoSNMP) (ctx : Context) (hostname : String)
    (s : GoSNMP) (suffix : String)
    (hget : ∀ oid vars, s.Get oid = .ok vars → vars ≠ [])
    (hargs : ctx.args = [hostname]) (hconn : NewGoSNMP hostname = .ok s)
    (hrow : getSuffixForDrive s ctx.mount = .ok suffix) (hsuffix : suffix ≠ "")
    (h : action ops lib NewGoSNMP ctx = .panic) :
    ∃ oid v rest, s.Get oid = .ok (v :: rest) ∧ ∀ n, v.Value ≠ Value.int n := by
  unfold action requireHostname createSnmpClient at h
  simp only [hargs, List.length_singleton, ne_eq, not_true_eq_false, if_false, List.headD_cons,
    hconn, hrow, hsuffix] at h
  cases hsize : s.Get (".1.3.6.1.2.1.25.2.3.1.5." ++ suffix) with
  | error err => simp [hsize] at h
  | ok sizeVars =>
    cases havail : s.Get (".1.3.6.1.2.1.25.2.3.1.6." ++ suffix) with
    | error err => simp [hsize, havail] at h
    | ok availVars =>
      simp only [hsize, havail] at h
      cases hfa : firstInt availVars with
      | none =>
        obtain ⟨v, rest, hv, hint⟩ := firstInt_none availVars (hget _ _ havail) hfa
        exact ⟨_, v, rest, hv ▸ havail, hint⟩
      | some a =>
        cases hfs : firstInt sizeVars with
        | none =>
          obtain ⟨v, rest, hv, hint⟩ := firstInt_none sizeVars (hget _ _ hsize) hfs
          exact ⟨_, v, rest, hv ▸ hsize, hint⟩
        | some t =>
          simp only [hfa, hfs] at h
          exact absurd h (thresholdCheck_ne_panic _ _ _ _ _ _)

/-- C10. On every agent whose drive table has the requested row: a reply to the
fetch of the size, or of the available space, that carries zero variables ends
the action with a failure of status 3 (the library hands it over as the error
`No responses received.`, which lines 128-135 report); and whenever the action
panics, a fetch has returned a first variable whose value is not an `int`, so
the first element of an empty variable list is never read. -/
theorem action_empty_reply {F : Type} (ops : Float64Ops F) (lib : RangeParser F)
    (NewGoSNMP : String → Except GoError GoSNMP) (ctx : Context) (hostname : String)
    (walk : String → List SnmpPDU) (reply : String → Except GoError (List SnmpPDU))
    (suffix : String) (hargs : ctx.args = [hostname])
    (hconn : NewGoSNMP hostname = .ok (GoSNMP.ofAgent walk reply))
    (hrow : getSuffixForDrive (GoSNMP.ofAgent walk reply) ctx.mount = .ok suffix)
    (hsuffix : suffix ≠ "") :
    (reply (".1.3.6.1.2.1.25.2.3.1.5." ++ suffix) = .ok [] →
      action ops lib NewGoSNMP ctx =
        .exitError ("Error getting size of drive " ++ "No responses received.") 3) ∧
    (∀ v rest, reply (".1.3.6.1.2.1.25.2.3.1.5." ++ suffix) = .ok (v :: rest) →
      reply (".1.3.6.1.2.1.25.2.3.1.6." ++ suffix) = .ok [] →
      action ops lib NewGoSNMP ctx =
        .exitError ("Error getting available space of drive " ++ "No responses received.") 3) ∧
    (action ops lib NewGoSNMP ctx = .panic →
      ∃ oid v rest, (GoSNMP.ofAgent walk reply).Get oid = .ok (v :: rest) ∧
        ∀ n, v.Value ≠ Value.int n) := by
  refine ⟨?_, ?_, ?_⟩
  · intro hsize
    have hS : (GoSNMP.ofAgent walk reply).Get (".1.3.6.1.2.1.25.2.3.1.5." ++ suffix) =
        .error { Error := "No responses received.",
                 GoRepr := "&errors.errorString\x7bs:\"No responses received.\"\x7d" } := by
      simp only [GoSNMP.ofAgent, hsize, sendPacket]
    unfold action requireHostname createSnmpClient
    simp only [hargs, List.length_singleton, ne_eq, not_true_eq_false, if_false,
      List.headD_cons, hconn, hrow, hsuffix, hS]
  · intro v rest hsize havail
    have hS : (GoSNMP.ofAgent walk reply).Get (".1.3.6.1.2.1.25.2.3.1.5." ++ suffix) =
        .ok (v :: rest) := by
      simp only [GoSNMP.ofAgent, hsize, sendPacket]
    have hA : (GoSNMP.ofAgent walk reply).Get (".1.3.6.1.2.1.25.2.3.1.6." ++ suffix) =
        .error { Error := "No responses received.",
                 GoRepr := "&errors.errorString\x7bs:\"No responses received.\"\x7d" } := by
      simp only [GoSNMP.ofAgent, havail, sendPacket]
    unfold action requireHostname createSnmpClient
    simp only [hargs, List.length_singleton, ne_eq, not_true_eq_false, if_false,
      List.headD_cons, hconn, hrow, hsuffix, hS, hA]
  · intro h
    exact action_panic_cause ops lib NewGoSNMP ctx hostname _ suffix
      (fun oid vars hv => sendPacket_ok_ne_nil _ vars hv) hargs hconn hrow hsuffix h

/-- Witness for C10: the agent replies to the fetch of the size of row 2 with zero
variables. -/
theorem action_empty_reply_witness :
    action Exact.ops Exact.parser (fun _ => .ok (Exact.host [] (Exact.intVar 50)))
        ⟨["server"], "/", "80", "90"⟩ =
      .exitError ("Error getting size of drive " ++ "No responses received.") 3 :=
  (action_empty_reply Exact.ops Exact.parser (fun _ => .ok (Exact.host [] (Exact.intVar 50)))
    ⟨["server"], "/", "80", "90"⟩ "server" _ _ "2" rfl rfl (by decide) (by decide)).1 rfl

/-- Replies with zero variables, evaluated: status 3 for the size and for the
available space. -/
theorem empty_reply_example :
    action Exact.ops Exact.parser (fun _ => .ok (Exact.host [] (Exact.intVar 50)))
        ⟨["server"], "/", "80", "90"⟩ =
      .exitError "Error getting size of drive No responses received." 3 ∧
    action Exact.ops Exact.parser (fun _ => .ok (Exact.host (Exact.intVar 1000) []))
        ⟨["server"], "/", "80", "90"⟩ =
      .exitError "Error getting available space of drive No responses received." 3 := by
  decide

end Snmpdisk

namespace Snmpdisk

open Go Gosnmp Cli

theorem action_convention {F : Type} (ops : Float64Ops F) (lib : RangeParser F)
    (NewGoSNMP : String → Except GoError GoSNMP) (ctx : Context) (message : String)
    (exitCode : Int) (h : action ops lib NewGoSNMP ctx = .exitError message exitCode) :
    followsConvention message exitCode := by
  unfold action at h
  split at h
  · rename_i err heq
    rw [requireHostname_error ctx err heq] at h
    injection h with h1 h2
    subst h1 h2
    exact followsConvention_failure _ (by decide) (by decide) (by decide)
  · split at h
    · rename_i err heq
      obtain ⟨m, hm⟩ := createSnmpClient_error_message NewGoSNMP _ err heq
      rw [hm] at h
      injection h with h1 h2
      subst h1 h2
      exact followsConvention_failure_append _ _ (by decide) (by decide) (by decide)
        (by decide)
    · repeat' split at h
      all_goals first
        | exact thresholdCheck_convention _ _ _ _ _ _ _ _ h
        | (injection h with h1 h2
           subst h1 h2
           try simp only [String.append_assoc]
           exact followsConvention_failure_append _ _ (by decide) (by decide) (by decide)
             (by decide))
        | cases h

end Snmpdisk

namespace Snmptool

open Go Gosnmp Cli

theorem checkAction_convention {F : Type} (ops : Float64Ops F) (lib : RangeParser F)
    (NewGoSNMP : String → Except GoError GoSNMP)
    (hlib : ∀ w c v, ∃ m, lib.NagiosComparator w c v = ("OK", m, 0) ∨
      lib.NagiosComparator w c v = ("WARNING", m, 1) ∨
      lib.NagiosComparator w c v = ("CRITICAL", m, 2) ∨
      lib.NagiosComparator w c v = ("UNKNOWN", m, 3))
    (column : String) (c : Context) (message : String) (exitCode : Int)
    (h : checkAction ops lib NewGoSNMP column c = .exitError message exitCode) :
    followsConvention message exitCode := by
  unfold checkAction at h
  split at h
  · rename_i err heq
    rw [Snmpdisk.requireHostname_error c err heq] at h
    injection h with h1 h2
    subst h1 h2
    exact followsConvention_failure _ (by decide) (by decide) (by decide)
  · split at h
    · rename_i err heq
      obtain ⟨m, hm⟩ := createSnmpClient_error_message NewGoSNMP _ err heq
      rw [hm] at h
      injection h with h1 h2
      subst h1 h2
      exact followsConvention_failure_append _ _ (by decide) (by decide) (by decide)
        (by decide)
    · split at h
      · injection h with h1 h2
        subst h1 h2
        exact followsConvention_failure_append _ _ (by decide) (by decide) (by decide)
          (by decide)
      · cases h
      · rename_i freespace _
        obtain ⟨m, hl | hl | hl | hl⟩ := hlib c.warning c.critical (ops.ofInt freespace)
        · rw [hl] at h
          simp only [(by decide : ¬("OK" = "UNKNOWN")), if_false] at h
          injection h with h1 h2
          subst h1 h2
          exact followsConvention_ok _ _ (by simp only [String.append_assoc]; rfl)
        · rw [hl] at h
          simp only [(by decide : ¬("WARNING" = "UNKNOWN")), if_false] at h
          injection h with h1 h2
          subst h1 h2
          exact followsConvention_warning _ _ (by simp only [String.append_assoc]; rfl)
        · rw [hl] at h
          simp only [(by decide : ¬("CRITICAL" = "UNKNOWN")), if_false] at h
          injection h with h1 h2
          subst h1 h2
          exact followsConvention_critical _ _ (by simp only [String.append_assoc]; rfl)
        · rw [hl] at h
          simp only [if_true] at h
          injection h with h1 h2
          subst h1 h2
          exact followsConvention_failure_append _ _ (by decide) (by decide) (by decide)
            (by decide)
      · cases h

end Snmptool

namespace Exact

theorem Evaluate_convention (w c : String) (v : ExactFloat) :
    ∃ m, Evaluate w c v = ("OK", m, 0) ∨ Evaluate w c v = ("WARNING", m, 1) ∨
      Evaluate w c v = ("CRITICAL", m, 2) ∨ Evaluate w c v = ("UNKNOWN", m, 3) := by
  unfold Evaluate
  split
  · exact ⟨_, Or.inr (Or.inr (Or.inr rfl))⟩
  · exact ⟨_, Or.inr (Or.inr (Or.inr rfl))⟩
  · split
    · exact ⟨_, Or.inr (Or.inr (Or.inl rfl))⟩
    · split
      · exact ⟨_, Or.inr (Or.inl rfl)⟩
      · exact ⟨_, Or.inl rfl⟩

end Exact

namespace Cli

open Go Gosnmp

/-- C4, as amended. Every outcome of a check action that is an exit error (that is,
every run in which no type assertion `.(int)` on a fetched value panics)
follows the convention: status 0 exactly for the level OK, 1 exactly for
WARNING, 2 exactly for CRITICAL, and 3 for every other outcome, which are the
failures.  For the default action of snmpdisk this holds outright; for the
`disk` and `inodes` actions of snmptool, whose level and status are the results
of `NagiosComparator`, it holds when that function returns its four levels with
the statuses 0 to 3. -/
theorem exit_status_convention {F : Type} (ops : Float64Ops F) (lib : RangeParser F)
    (NewGoSNMP : String → Except GoError GoSNMP) :
    (∀ ctx message exitCode,
      Snmpdisk.action ops lib NewGoSNMP ctx = .exitError message exitCode →
      followsConvention message exitCode) ∧
    ((∀ w c v, ∃ m, lib.NagiosComparator w c v = ("OK", m, 0) ∨
        lib.NagiosComparator w c v = ("WARNING", m, 1) ∨
        lib.NagiosComparator w c v = ("CRITICAL", m, 2) ∨
        lib.NagiosComparator w c v = ("UNKNOWN", m, 3)) →
      ∀ column c message exitCode,
        Snmptool.checkAction ops lib NewGoSNMP column c = .exitError message exitCode →
        followsConvention message exitCode) :=
  ⟨fun ctx message exitCode h => Snmpdisk.action_convention ops lib NewGoSNMP ctx message exitCode h,
    fun hlib column c message exitCode h =>
      Snmptool.checkAction_convention ops lib NewGoSNMP hlib column c message exitCode h⟩

/-- Witness for C4 as amended: a run of snmpdisk that reports CRITICAL with status 2
and a run of the `disk` action of snmptool that reports OK with status 0. -/
theorem exit_status_convention_witness :
    followsConvention "CRITICAL: / 95.00" 2 ∧ followsConvention "OK: / 50%" 0 :=
  ⟨(exit_status_convention Exact.ops Exact.parser
      (fun _ => .ok (Exact.host (Exact.intVar 100) (Exact.intVar 95)))).1
      ⟨["server"], "/", "80", "90"⟩ "CRITICAL: / 95.00" 2 (by decide),
    (exit_status_convention Exact.ops Exact.parser
      (fun _ => .ok (Exact.host [] (Exact.intVar 50)))).2 Exact.Evaluate_convention
      "9" ⟨["server"], "/", "~:80", "~:90"⟩ "OK: / 50%" 0 (by decide)⟩

/-- C4, counterexample: the fetch of the size returns one variable whose value is
not an `int` (the nil value of a `noSuchInstance` answer, or a string): the type
assertion on line 137 panics, and the Go runtime ends the process with status 2
although no level is CRITICAL. -/
theorem action_type_assertion_panics :
    Snmpdisk.action Exact.ops Exact.parser
        (fun _ => .ok (Exact.host [⟨".1.3.6.1.2.1.25.2.3.1.5.2", .other⟩] (Exact.intVar 50)))
        ⟨["server"], "/", "80", "90"⟩ = .panic ∧
    Snmpdisk.action Exact.ops Exact.parser
        (fun _ => .ok (Exact.host [⟨".1.3.6.1.2.1.25.2.3.1.5.2", .str "1000"⟩]
          (Exact.intVar 50)))
        ⟨["server"], "/", "80", "90"⟩ = .panic := by
  decide

end Cli

namespace Snmptool

open Go Gosnmp Cli

/-- The `disk` action on an agent that replies with zero variables, and on one that
replies with a value that is not an `int`, evaluated: status 3, and a panic. -/
theorem checkAction_example :
    checkAction Exact.ops Exact.parser (fun _ => .ok (Exact.host [] []))
        "9" ⟨["server"], "/", "~:80", "~:90"⟩ =
      .exitError "Couldn't find drive free space:No responses received." 3 ∧
    checkAction Exact.ops Exact.parser
        (fun _ => .ok (Exact.host [] [⟨".1.3.6.1.4.1.2021.9.1.9.2", .other⟩]))
        "9" ⟨["server"], "/", "~:80", "~:90"⟩ = .panic := by
  decide

end Snmptool
